import Mathlib

/-!
Verification of the workbook-locating, value-extraction and template-writing
core of the electricity-coordinator report generator.

The Python sources are shallowly embedded:

* pure string/number manipulation becomes Lean functions on `String` and `ℚ`
  (Python floats are modelled as rationals, which is exact for every decimal
  literal that appears in the claims);
* spreadsheet cells become a tagged variant (`Val` for the template writer,
  `XVal` for the extractor side); worksheets become association lists keyed by
  (row, column) or row grids; workbooks become name/sheet association lists;
* the filesystem seen by the archive locators becomes an explicit list of
  directory/file entries enumerated in `glob`/`iterdir`/`rglob` order;
* functions that raise become functions into `Option`/error-carrying results,
  and the on-disk workbook mutated by the template writer is threaded
  explicitly so that save/abort behaviour is observable.

Definitions follow `src/core/leer_excel.py`,
`src/Paquete para Cliente/core/plantilla_cliente.py`,
`src/Paquete para Cliente/core/descargar_archivos.py` and
`src/app/gui/informe.py`; each definition names the Python function it embeds.
-/

/-! ## Python-style string primitives

These are defined over `List Char` (rather than through the `String` API,
parts of which do not reduce inside the kernel) so that every concrete
instance in a witness can be settled by `decide`. -/

/-- Python `needle in hay` (substring containment). -/
def containsSub (hay needle : String) : Bool :=
  decide (List.IsInfix needle.data hay.data)

/-- Fuel-driven worker for `replaceChars` (structural recursion on the fuel so
that the kernel can evaluate it inside `decide`). -/
def replaceCharsAux : Nat → List Char → List Char → List Char → List Char
  | 0, s, _, _ => s
  | _ + 1, [], _, _ => []
  | fuel + 1, c :: rest, pat, rep =>
    if pat ≠ [] ∧ pat.isPrefixOf (c :: rest) then
      rep ++ replaceCharsAux fuel ((c :: rest).drop pat.length) pat rep
    else c :: replaceCharsAux fuel rest pat rep

/-- Replace every (non-overlapping, leftmost-first) occurrence of `pat` by
`rep`, as Python `str.replace` does for a non-empty pattern.  The fuel equals
the string length, which bounds the number of recursive steps. -/
def replaceChars (s pat rep : List Char) : List Char :=
  replaceCharsAux s.length s pat rep

/-- Python `s.replace(pat, rep)`. -/
def pyReplace (s pat rep : String) : String :=
  ⟨replaceChars s.data pat.data rep.data⟩

/-- Python `s.strip()`. -/
def pyTrim (s : String) : String :=
  ⟨((s.data.dropWhile Char.isWhitespace).reverse.dropWhile Char.isWhitespace).reverse⟩

/-- Python `s.lower()` (ASCII, which covers every string in the sources). -/
def pyLower (s : String) : String :=
  ⟨s.data.map Char.toLower⟩

/-- Python `s.upper()` (ASCII). -/
def pyUpper (s : String) : String :=
  ⟨s.data.map Char.toUpper⟩

/-- Python `s.startswith(pre)`. -/
def pyStartsWith (s pre : String) : Bool :=
  pre.data.isPrefixOf s.data

/-- Python `s.replace(" ", "")`. -/
def quitarEspacios (s : String) : String :=
  pyReplace s " " ""

/-- Python `str(x)[-2:]` for the textual form of a year. -/
def ultimos2 (s : String) : String :=
  ⟨s.data.drop (s.data.length - 2)⟩

/-- Fuel-driven worker for `natDigits`. -/
def natDigitsAux : Nat → Nat → List Char
  | 0, _ => []
  | fuel + 1, n =>
    if n < 10 then [Char.ofNat (48 + n)]
    else natDigitsAux fuel (n / 10) ++ [Char.ofNat (48 + n % 10)]

/-- Decimal digit list of a natural number, most significant first.
Models the digits of Python `str(n)` for a non-negative integer.  The fuel
`n + 1` dominates the number of divisions by ten. -/
def natDigits (n : Nat) : List Char :=
  natDigitsAux (n + 1) n

/-- Python `str(n)` for a natural number. -/
def natStr (n : Nat) : String :=
  ⟨natDigits n⟩

/-- Two-digit zero-padded month, Python `str(mes).zfill(2)`. -/
def pad2 (n : Nat) : String :=
  if n < 10 then "0" ++ natStr n else natStr n

/-- Model of Python `str(float)` for a rational cell value.  Integral values
render as `digits ++ ".0"` exactly as CPython does; non-integral values render
as an approximate `int.frac` digit string.  No claim depends on the exact
digits of a non-integral rendering: the matching predicates applied to it only
ever test for month names, concept labels and header keywords, all of which
contain letters, while this rendering contains only digits, `-` and `.`. -/
def ratPyStr (q : ℚ) : String :=
  let sign := if q < 0 then "-" else ""
  let n := q.num.natAbs
  if q.den = 1 then sign ++ ⟨natDigits n⟩ ++ ".0"
  else sign ++ ⟨natDigits (n / q.den)⟩ ++ "." ++ ⟨natDigits (n % q.den)⟩

/-! ## Value Parser (`src/core/leer_excel.py`, `_parsear_valor_monetario`)

`pyFloat` models CPython `float(str)` on ordinary finite decimal literals:
optional surrounding whitespace, an optional sign, decimal digits with an
optional fractional part, and an optional exponent.  (The exotic inputs
`inf`/`nan` and underscore digit separators are outside the model; no value
in this repository's spreadsheets takes those forms.) -/

/-- Digits-to-number accumulator used by the float parser. -/
def digitsVal (cs : List Char) : Nat :=
  cs.foldl (fun a c => a * 10 + (c.toNat - 48)) 0

/-- Model of Python `float(s)` for finite decimal literals; `none` models
`ValueError`. -/
def pyFloat (s : String) : Option ℚ :=
  let cs := (pyTrim s).data
  let (sign, cs1) :=
    match cs with
    | '+' :: r => ((1 : ℚ), r)
    | '-' :: r => ((-1 : ℚ), r)
    | r => ((1 : ℚ), r)
  let ip := cs1.takeWhile Char.isDigit
  let cs2 := cs1.drop ip.length
  let (fp, cs3) :=
    match cs2 with
    | '.' :: r => (r.takeWhile Char.isDigit, r.drop (r.takeWhile Char.isDigit).length)
    | r => ([], r)
  if ip.length + fp.length = 0 then none
  else
    let mant : ℚ := (digitsVal ip : ℚ) + (digitsVal fp : ℚ) / ((10 : ℚ) ^ fp.length)
    match cs3 with
    | [] => some (sign * mant)
    | 'e' :: r => pyFloatExp sign mant r
    | 'E' :: r => pyFloatExp sign mant r
    | _ => none
where
  /-- Exponent part `[+-]?digits` of a float literal. -/
  pyFloatExp (sign mant : ℚ) (r : List Char) : Option ℚ :=
    let (esign, r1) :=
      match r with
      | '+' :: t => (true, t)
      | '-' :: t => (false, t)
      | t => (true, t)
    let ed := r1.takeWhile Char.isDigit
    if ed.length = 0 ∨ r1.drop ed.length ≠ [] then none
    else if esign then some (sign * mant * (10 : ℚ) ^ digitsVal ed)
    else some (sign * mant / (10 : ℚ) ^ digitsVal ed)

/-- Dynamic Python value reaching `_parsear_valor_monetario` (`None`, `int`,
`float`, `bool` or `str`).  `bool` is listed separately because Python bools
are `int`s yet the source excludes them explicitly. -/
inductive PyVal where
  | none : PyVal
  | int (n : ℤ) : PyVal
  | float (q : ℚ) : PyVal
  | boolean (b : Bool) : PyVal
  | str (s : String) : PyVal
deriving DecidableEq

/-- Normalisation applied by `_parsear_valor_monetario` before `float(...)`:
`str(val).strip().replace(".", "").replace(",", ".")`. -/
def normalizarMonetario (s : String) : String :=
  pyReplace (pyReplace (pyTrim s) "." "") "," "."

/-- Embedding of `_parsear_valor_monetario` (src/core/leer_excel.py:822).
`None` stays absent; non-bool `int`/`float` pass through; anything else is
stringified, thousand dots removed, decimal comma turned into a dot, and fed
to `float`, with `ValueError` modelled as `none`. -/
def parsearValorMonetario : PyVal → Option ℚ
  | PyVal.none => Option.none
  | PyVal.int n => some (n : ℚ)
  | PyVal.float q => some q
  | PyVal.boolean b => pyFloat (normalizarMonetario (if b then "True" else "False"))
  | PyVal.str s => pyFloat (normalizarMonetario s)

/-! ## Download client (`src/Paquete para Cliente/core/descargar_archivos.py`,
`descargar_archivo`) -/

/-- Outcome of the underlying `requests.get`: either the server answered with
an HTTP status code (`texto` carries `str(e)` of the `HTTPError` that
`raise_for_status` raises for an error status; it is unused on success), or
the request failed at the network level
(`requests.exceptions.RequestException` without a response). -/
inductive RespuestaHTTP where
  | respuesta (status : Nat) (texto : String) : RespuestaHTTP
  | errorRed (msg : String) : RespuestaHTTP
deriving DecidableEq

/-- The `(exitoso, codigo_error, mensaje)` triple returned by
`descargar_archivo`. -/
structure ResultadoDescarga where
  exitoso : Bool
  codigoError : Option Nat
  mensaje : String
deriving DecidableEq

/-- `requests.Response.__bool__`, which returns `self.ok`: true exactly for
status codes below 400.  The handler's `if e.response` truthiness test goes
through this, not through an `is None` check. -/
def respuestaOk (status : Nat) : Bool :=
  decide (status < 400)

/-- Python `f"{x}"` on an optional integer: `None` renders as `"None"`. -/
def pyStrOptNat : Option Nat → String
  | Option.none => "None"
  | some n => natStr n

/-- Embedding of `descargar_archivo`
(src/Paquete para Cliente/core/descargar_archivos.py:142).
`response.raise_for_status()` raises `HTTPError` exactly for status codes in
[400, 600); the handler computes
`codigo_error = e.response.status_code if e.response else None`, where the
response's truthiness is `respuestaOk` (status < 400) — always false here —
then takes the 403 branch only when `codigo_error == 403`, else returns
`(False, codigo_error, f"Error HTTP {codigo_error}: {e}")`; a non-HTTP
network error returns `(False, None, str(e))`. -/
def descargarArchivo : RespuestaHTTP → ResultadoDescarga
  | RespuestaHTTP.respuesta st texto =>
    if 400 ≤ st ∧ st < 600 then
      let codigoError := if respuestaOk st then some st else Option.none
      if codigoError = some 403 then
        ⟨false, some 403, "El contenido no está disponible (403 Forbidden)"⟩
      else
        ⟨false, codigoError, "Error HTTP " ++ pyStrOptNat codigoError ++ ": " ++ texto⟩
    else ⟨true, Option.none, "Descarga completada"⟩
  | RespuestaHTTP.errorRed m => ⟨false, Option.none, m⟩

/-! ## Sheet Resolver (`src/core/leer_excel.py`, `_encontrar_hoja_por_patron`)

The embedded function takes the workbook's sheet-name list directly (the
Python function additionally opens the file and maps any I/O exception or a
missing `pyxlsb` to `None`; those paths carry no resolution logic). -/

/-- `MESES_ANEXO_POTENCIA` (src/core/leer_excel.py:110) together with the
`.get(mes, "Dic")` default used by its callers. -/
def mesesAnexoPotencia (m : Nat) : String :=
  if m = 1 then "Ene" else if m = 2 then "Feb" else if m = 3 then "Mar"
  else if m = 4 then "Abr" else if m = 5 then "May" else if m = 6 then "Jun"
  else if m = 7 then "Jul" else if m = 8 then "Ago" else if m = 9 then "Sep"
  else if m = 10 then "Oct" else if m = 11 then "Nov" else "Dic"

/-- Embedding of `_encontrar_hoja_por_patron` (src/core/leer_excel.py:431):
first sheet name containing (lower-cased) every pattern and at least one of
the variants `Mes-YY`, `MesYY`, `mes-yy`, `mesyy`, `YY`. -/
def encontrarHojaPorPatron (nombres patrones : List String) (mes anyo : Nat) :
    Option String :=
  let ma := mesesAnexoPotencia mes
  let y2 := ultimos2 (natStr anyo)
  let variantes := [ma ++ "-" ++ y2, ma ++ y2, pyLower ma ++ "-" ++ y2,
    pyLower ma ++ y2, y2]
  nombres.find? fun n =>
    let nl := pyLower n
    patrones.all (fun p => containsSub nl (pyLower p)) &&
    variantes.any (fun v => containsSub nl (pyLower v))

/-- Resolver acceptance rule as worded by the specification: lower-case AND
strip spaces from each sheet name, and accept when all patterns are present
and at least one of the encodings full year, 2-digit year, abbreviated month
name, `abbrevmonth-2digityear`, `abbrevmonth2digityear` is present. -/
def resolveSheetSpec (nombres patrones : List String) (mes anyo : Nat) :
    Option String :=
  let ma := pyLower (mesesAnexoPotencia mes)
  let y4 := natStr anyo
  let y2 := ultimos2 y4
  let claves := [y4, y2, ma, ma ++ "-" ++ y2, ma ++ y2]
  nombres.find? fun n =>
    let nl := quitarEspacios (pyLower n)
    patrones.all (fun p => containsSub nl (pyLower p)) &&
    claves.any (fun v => containsSub nl v)

/-- Amended resolver acceptance rule: the sheet name is only lower-cased (not
space-stripped) and the accepted period encodings are exactly
`abbrevmonth-2digityear`, `abbrevmonth2digityear` and the bare 2-digit year —
a full year is accepted only through its 2-digit suffix and a bare month
abbreviation alone is not accepted. -/
def resolveSheetAmended (nombres patrones : List String) (mes anyo : Nat) :
    Option String :=
  let ma := pyLower (mesesAnexoPotencia mes)
  let y2 := ultimos2 (natStr anyo)
  let claves := [ma ++ "-" ++ y2, ma ++ y2, y2]
  nombres.find? fun n =>
    let nl := pyLower n
    patrones.all (fun p => containsSub nl (pyLower p)) &&
    claves.any (fun v => containsSub nl v)

/-! ## Extractor-side workbooks (`pyxlsb`/pandas view)

A cell value as `pyxlsb`/pandas deliver it; a sheet row is the list of
`(column index, value)` cells of a (possibly sparse) row; an appendix
workbook is the list of its named sheets in native order. -/

/-- Dynamic cell value on the extractor side. -/
inductive XVal where
  | none : XVal
  | num (q : ℚ) : XVal
  | str (s : String) : XVal
  | boolean (b : Bool) : XVal
deriving DecidableEq

/-- Python `str(v)` on a cell value. -/
def XVal.pyStr : XVal → String
  | XVal.none => "None"
  | XVal.num q => ratPyStr q
  | XVal.str s => s
  | XVal.boolean b => if b then "True" else "False"

/-- Python truthiness of a cell value. -/
def XVal.truthy : XVal → Bool
  | XVal.none => false
  | XVal.num q => decide (q ≠ 0)
  | XVal.str s => decide (s ≠ "")
  | XVal.boolean b => b

/-- Python `float(v)` on a cell value; `none` models
`TypeError`/`ValueError`. -/
def XVal.floatCast : XVal → Option ℚ
  | XVal.none => Option.none
  | XVal.num q => some q
  | XVal.str s => pyFloat s
  | XVal.boolean b => some (if b then 1 else 0)

/-- View of a cell value as a `_parsear_valor_monetario` argument. -/
def XVal.aPyVal : XVal → PyVal
  | XVal.none => PyVal.none
  | XVal.num q => PyVal.float q
  | XVal.str s => PyVal.str s
  | XVal.boolean b => PyVal.boolean b

/-- A sparse sheet row: `(column index, value)` cells. -/
abbrev FilaX := List (Nat × XVal)

/-- An appendix workbook: named sheets in native order. -/
abbrev AnexoWb := List (String × List FilaX)

/-- Insert-or-replace in an association list, preserving the position of an
existing key exactly as a Python `dict` does. -/
def setAssoc : List (Nat × XVal) → Nat → XVal → List (Nat × XVal)
  | [], c, v => [(c, v)]
  | (c0, v0) :: r, c, v =>
    if c0 = c then (c0, v) :: r else (c0, v0) :: setAssoc r c v

/-- The `row_by_col` dictionary built cell by cell
(src/core/leer_excel.py:759). -/
def rowByCol (f : FilaX) : List (Nat × XVal) :=
  f.foldl (fun acc e => setAssoc acc e.1 e.2) []

/-- Dictionary lookup (`row_by_col.get(c)`). -/
def lookupAssoc (f : List (Nat × XVal)) (c : Nat) : Option XVal :=
  (f.find? (fun e => e.1 = c)).map (fun e => e.2)

/-- Python `x or y` over optional cell values (`None`/falsy fall through). -/
def pyOr (a b : Option XVal) : Option XVal :=
  match a with
  | some v => if v.truthy then some v else b
  | Option.none => b

/-- First `float`-castable value strictly to the right of `colIdx` in a row
dictionary, scanning columns in sorted order
(src/core/leer_excel.py:776). -/
def primerFloatDerecha (rbc : List (Nat × XVal)) (colIdx : Nat) : Option ℚ :=
  let colsOrden := (rbc.map Prod.fst).mergeSort (fun a b => a ≤ b)
  colsOrden.findSome? fun c =>
    if colIdx < c then
      match lookupAssoc rbc c with
      | some v => v.floatCast
      | Option.none => Option.none
    else Option.none

/-- One row of the `.xlsb` scan of `leer_valor_concepto_anexo_xlsb`
(src/core/leer_excel.py:758): `some r` means a non-excluded cell matched the
concept, after which the whole extraction terminates with `r` (the first
numeric value to the right, or `None`); `none` means the row produced no
match or a matched cell contained an exclusion token (Python `break`, which
skips the rest of the row). -/
def procesarFilaConcepto (rbc : List (Nat × XVal)) (tU : String)
    (excluir : List String) : Option (Option ℚ) :=
  go rbc
where
  /-- Scan the row dictionary in insertion order. -/
  go : List (Nat × XVal) → Option (Option ℚ)
  | [] => Option.none
  | (c, v) :: rest =>
    let vs := pyUpper (pyTrim v.pyStr)
    if containsSub vs tU then
      if excluir.any (fun ex => containsSub vs (pyUpper ex)) then Option.none
      else some (primerFloatDerecha rbc c)
    else go rest

/-- Embedding of the `.xlsb` branch of `leer_valor_concepto_anexo_xlsb`
(src/core/leer_excel.py:694-785) with `columna_valor = None`: resolve the
sheet list to scan (exact name, case-insensitive substring fallback, or all
sheets), then return the first matched row's adjacent numeric value. -/
def leerValorConceptoXlsbCore (hojas : AnexoWb) (texto : String)
    (nombreHoja : Option String) (excluir : List String) : Option ℚ :=
  let tU := pyUpper texto
  let nombres := hojas.map Prod.fst
  let aRevisar : List String :=
    match nombreHoja with
    | some nh =>
      if nombres.contains nh then [nh]
      else
        match nombres.find? (fun s => containsSub (pyLower s) (pyLower nh)) with
        | some s => [s]
        | Option.none => []
    | Option.none => nombres
  match aRevisar.findSome? (fun nh =>
    match hojas.find? (fun p => p.1 = nh) with
    | Option.none => Option.none
    | some par => par.2.findSome? (fun fila =>
        procesarFilaConcepto (rowByCol fila) tU excluir)) with
  | some r => r
  | Option.none => Option.none

/-! ## Dense-grid (pandas) view of an appendix sheet -/

/-- Width (column count) contributed by one sparse row. -/
def anchoFila (f : FilaX) : Nat :=
  f.foldl (fun a e => max a (e.1 + 1)) 0

/-- Width of a sheet: the widest row. -/
def anchoHoja (fs : List FilaX) : Nat :=
  fs.foldl (fun a f => max a (anchoFila f)) 0

/-- Densify one sparse row to width `w`, missing cells becoming NaN/None. -/
def filaDensa (f : FilaX) (w : Nat) : List XVal :=
  (List.range w).map (fun c => (lookupAssoc (rowByCol f) c).getD XVal.none)

/-- The dense grid pandas would build from a sheet (`header=None`). -/
def hojaDensa (fs : List FilaX) : List (List XVal) :=
  fs.map (fun f => filaDensa f (anchoHoja fs))

/-- Sheet resolution shared by the readers: exact name, then
case-insensitive substring fallback (src/core/leer_excel.py:652-662,
744-752, 867-873). -/
def resolverNombreHoja (hojas : AnexoWb) (nombreHoja : String) :
    Option (List FilaX) :=
  match hojas.find? (fun p => p.1 = nombreHoja) with
  | some p => some p.2
  | Option.none =>
    match hojas.find? (fun p => containsSub (pyLower p.1) (pyLower nombreHoja)) with
    | some p => some p.2
    | Option.none => Option.none

/-- Python `" ".join(l)`. -/
def uneCon (sep : String) : List String → String
  | [] => ""
  | [x] => x
  | x :: xs => x ++ sep ++ uneCon sep xs

/-- Embedding of `_leer_valor_por_empresa_y_columna`
(src/core/leer_excel.py:522): detect the USUARIOS/EMPRESA header row, name
the columns from it, pick the company column and the named value column
(falling back to the last exact `total`), then return the first parseable
value of a row whose normalised company cell matches the filter in either
substring direction.  (pandas duplicate-label `Series` handling is outside
the model: columns are indexed positionally.) -/
def leerValorPorEmpresaYColumna (hojas : AnexoWb) (nombreHoja : String)
    (nombreEmpresa : String) (colValor : String) : Option ℚ :=
  match resolverNombreHoja hojas nombreHoja with
  | Option.none => Option.none
  | some filas =>
    let grid := hojaDensa filas
    let w := anchoHoja filas
    let primerasValidas := ["USUARIOS", "EMPRESA"]
    let idxs := List.range (min 20 grid.length)
    let porPrimeraCelda := idxs.find? (fun i =>
      if w = 0 then false
      else
        let v := (grid.getD i []).getD 0 XVal.none
        if v = XVal.none then false
        else
          let fs := pyUpper (pyTrim v.pyStr)
          primerasValidas.contains fs || pyStartsWith fs "USUARIOS")
    let headerRow? :=
      match porPrimeraCelda with
      | some i => some i
      | Option.none => idxs.find? (fun i =>
          (List.range (min 3 w)).any (fun j =>
            let c := (grid.getD i []).getD j XVal.none
            c ≠ XVal.none && primerasValidas.contains (pyUpper (pyTrim c.pyStr))))
    match headerRow? with
    | Option.none => Option.none
    | some hr =>
      let etiquetas := (grid.getD hr []).map (fun c =>
        if c = XVal.none then "" else pyTrim c.pyStr)
      let datos := grid.drop (hr + 1)
      let empNorm := pyUpper (pyReplace (pyTrim nombreEmpresa) " " "_")
      if empNorm = "" then Option.none
      else
        let js := List.range etiquetas.length
        let colEmpresa :=
          match js.find? (fun j => pyLower (pyTrim (etiquetas.getD j "")) = "usuarios") with
          | some j => j
          | Option.none =>
            match js.find? (fun j =>
              containsSub (pyLower (etiquetas.getD j "")) "usuario" ||
              containsSub (pyLower (etiquetas.getD j "")) "empresa") with
            | some j => j
            | Option.none => 0
        let colTarget? :=
          match js.find? (fun j =>
            let et := etiquetas.getD j ""
            let cstr := if et ≠ "" then pyLower (pyTrim et) else ""
            cstr ≠ "" && containsSub cstr (pyLower colValor)) with
          | some j => some j
          | Option.none =>
            js.reverse.find? (fun j => pyLower (pyTrim (etiquetas.getD j "")) = "total")
        match colTarget? with
        | Option.none => Option.none
        | some ct =>
          datos.findSome? (fun (fila : List XVal) =>
            let celda := fila.getD colEmpresa XVal.none
            if celda = XVal.none then Option.none
            else
              let celdaNorm := pyUpper (pyReplace (pyTrim celda.pyStr) " " "_")
              if containsSub celdaNorm empNorm || containsSub empNorm celdaNorm ||
                  pyStartsWith empNorm celdaNorm || pyStartsWith celdaNorm empNorm then
                parsearValorMonetario ((fila.getD ct XVal.none).aPyVal)
              else Option.none)

/-- Embedding of `_leer_valor_por_columna` (src/core/leer_excel.py:637):
pandas `header=0` read (NaN headers become `Unnamed: k`), locate the value
column by substring, then return the first parseable value of a row whose
joined text contains the concept and no exclusion token. -/
def leerValorPorColumna (hojas : AnexoWb) (textoUpper : String)
    (nombreHoja : Option String) (excluirUpper : List String)
    (colValorLower : String) : Option ℚ :=
  let filas? : Option (List FilaX) :=
    match nombreHoja with
    | some nh => resolverNombreHoja hojas nh
    | Option.none => (hojas.head?).map (fun p => p.2)
  match filas? with
  | Option.none => Option.none
  | some filas =>
    let grid := hojaDensa filas
    let w := anchoHoja filas
    let etiquetas := (List.range w).map (fun k =>
      match (grid.getD 0 []).getD k XVal.none with
      | XVal.none => "Unnamed: " ++ natStr k
      | v => v.pyStr)
    let datos := grid.drop 1
    match (List.range etiquetas.length).find? (fun j =>
      containsSub (pyLower (pyTrim (etiquetas.getD j ""))) colValorLower) with
    | Option.none => Option.none
    | some ct =>
      datos.findSome? (fun (fila : List XVal) =>
        let rowStr := uneCon " "
          ((fila.filter (fun v => v ≠ XVal.none)).map (fun v => pyUpper v.pyStr))
        if containsSub rowStr textoUpper then
          if excluirUpper.any (fun ex => containsSub rowStr ex) then Option.none
          else parsearValorMonetario ((fila.getD ct XVal.none).aPyVal)
        else Option.none)

/-- Embedding of the full `leer_valor_concepto_anexo_xlsb`
(src/core/leer_excel.py:694): dispatch on `columna_valor` (whose stripped
lower-case form must be truthy) between the named-column reader and the
adjacent-cell scan. -/
def leerValorConceptoAnexo (hojas : AnexoWb) (texto : String)
    (nombreHoja : Option String) (excluir : List String)
    (columnaValor : Option String) : Option ℚ :=
  match columnaValor with
  | some cv =>
    let cvl := pyLower (pyTrim cv)
    if cv ≠ "" ∧ cvl ≠ "" then
      leerValorPorColumna hojas (pyUpper texto) nombreHoja
        (excluir.map pyUpper) cvl
    else leerValorConceptoXlsbCore hojas texto nombreHoja excluir
  | Option.none => leerValorConceptoXlsbCore hojas texto nombreHoja excluir

/-- Embedding of `leer_total_ingresos_potencia_firme_anexo`
(src/core/leer_excel.py:835): per row, company from column B (falling back to
A on falsy), exact upper-case match, value from column D (falling back to C),
first parseable value wins. -/
def leerTotalIngresosPotenciaFirmeAnexo (hojas : AnexoWb) (nombreHoja : String)
    (nombreEmpresa : String) : Option ℚ :=
  let empU := pyUpper (pyTrim nombreEmpresa)
  if empU = "" then Option.none
  else
    match resolverNombreHoja hojas nombreHoja with
    | Option.none => Option.none
    | some filas =>
      filas.findSome? (fun fila =>
        let rbc := rowByCol fila
        match pyOr (lookupAssoc rbc 1) (lookupAssoc rbc 0) with
        | Option.none => Option.none
        | some empVal =>
          if pyUpper (pyTrim empVal.pyStr) ≠ empU then Option.none
          else
            match pyOr (lookupAssoc rbc 3) (lookupAssoc rbc 2) with
            | Option.none => Option.none
            | some totalVal => parsearValorMonetario totalVal.aPyVal)

/-! ## Appendix extractors (`leer_total_ingresos_potencia_firme`,
`leer_ingresos_por_it`, `leer_ingresos_por_potencia`)

The Python functions begin with `encontrar_archivo_anexo_potencia` and return
`None` when the appendix workbook is absent; here the located workbook (or
its absence) is the explicit `archivo` argument. -/

/-- Embedding of `leer_total_ingresos_potencia_firme`
(src/core/leer_excel.py:917). -/
def leerTotalIngresosPotenciaFirme (archivo : Option AnexoWb) (anyo mes : Nat)
    (nombreEmpresa : String) : Option ℚ :=
  match archivo with
  | Option.none => Option.none
  | some hojas =>
    let nombreHoja :=
      match encontrarHojaPorPatron (hojas.map Prod.fst) ["01.BALANCE", "POTENCIA"] mes anyo with
      | some h => h
      | Option.none =>
        "01.BALANCE POTENCIA " ++ mesesAnexoPotencia mes ++ "-" ++
          ultimos2 (natStr anyo) ++ " def"
    if nombreEmpresa ≠ "" then
      leerTotalIngresosPotenciaFirmeAnexo hojas nombreHoja nombreEmpresa
    else
      leerValorConceptoAnexo hojas "TOTAL INGRESOS POR POTENCIA FIRME CLP"
        (some nombreHoja) [] Option.none

/-- Embedding of `leer_ingresos_por_it` (src/core/leer_excel.py:971). -/
def leerIngresosPorIt (archivo : Option AnexoWb) (anyo mes : Nat)
    (nombreEmpresa : String) : Option ℚ :=
  match archivo with
  | Option.none => Option.none
  | some hojas =>
    match encontrarHojaPorPatron (hojas.map Prod.fst) ["02", "IT", "POTENCIA"] mes anyo with
    | Option.none => Option.none
    | some nombreHoja =>
      let porEmpresa : Option ℚ :=
        if nombreEmpresa ≠ "" then
          leerValorPorEmpresaYColumna hojas nombreHoja (pyTrim nombreEmpresa) "Total"
        else Option.none
      match porEmpresa with
      | some v => some v
      | Option.none =>
        ["INGRESOS POR IT POTENCIA", "INGRESOS POR IT"].findSome? (fun texto =>
          match leerValorConceptoAnexo hojas texto (some nombreHoja) [] (some "Total") with
          | some v => some v
          | Option.none => leerValorConceptoAnexo hojas texto (some nombreHoja) [] Option.none)

/-- Embedding of `leer_ingresos_por_potencia` (src/core/leer_excel.py:1046). -/
def leerIngresosPorPotencia (archivo : Option AnexoWb) (anyo mes : Nat)
    (nombreEmpresa : String) : Option ℚ :=
  match archivo with
  | Option.none => Option.none
  | some hojas =>
    let nombreHoja :=
      match encontrarHojaPorPatron (hojas.map Prod.fst) ["01.BALANCE", "POTENCIA"] mes anyo with
      | some h => h
      | Option.none =>
        "01.BALANCE POTENCIA " ++ mesesAnexoPotencia mes ++ "-" ++
          ultimos2 (natStr anyo) ++ " def"
    let porEmpresa : Option ℚ :=
      if pyTrim nombreEmpresa ≠ "" then
        match leerTotalIngresosPotenciaFirmeAnexo hojas nombreHoja (pyTrim nombreEmpresa) with
        | some v => some v
        | Option.none =>
          leerValorPorEmpresaYColumna hojas nombreHoja (pyTrim nombreEmpresa) "TOTAL"
      else Option.none
    match porEmpresa with
    | some v => some v
    | Option.none =>
      match leerValorConceptoAnexo hojas "INGRESOS POR POTENCIA" (some nombreHoja)
          ["FIRME"] (some "Total general") with
      | some v => some v
      | Option.none =>
        leerValorConceptoAnexo hojas "INGRESOS POR POTENCIA" (some nombreHoja)
          ["FIRME"] (some "TOTAL")

/-! ## Report Orchestrator fragment (`src/app/gui/informe.py`, `procesar_mes`)

The Balance Valorizado table arrives already loaded; rows carry the company,
bus-bar, monetary, physical-kWh and meter-name cells, and one flag per
required column records whether the column was detected in the header
(informe.py:846-864).  The SSCC and GM-Holdings extractors read separate
workbooks not involved in any claim and enter as opaque already-computed
results. -/

/-- One row of the Balance Valorizado table (pandas view: text cells read as
strings or NaN, numeric cells as numbers or NaN). -/
structure FilaBalance where
  empresa : Option String
  barra : Option String
  monetario : Option ℚ
  fisicoKwh : Option ℚ
  medidor : Option String
deriving DecidableEq

/-- The loaded Balance table plus column-detection flags. -/
structure BalanceDF where
  filas : List FilaBalance
  tieneEmpresa : Bool
  tieneBarra : Bool
  tieneMonetario : Bool
  tieneFisico : Bool
  tieneMedidor : Bool

/-- pandas `astype(str)` on a possibly-missing text cell (`NaN` → `"nan"`). -/
def strAstype : Option String → String
  | some s => s
  | Option.none => "nan"

/-- Company filter (informe.py:873-876): case-insensitive equality. -/
def filtrarEmpresa (filas : List FilaBalance) (nombre : String) : List FilaBalance :=
  filas.filter (fun f => pyLower (strAstype f.empresa) = pyLower nombre)

/-- Bus-bar filter (informe.py:882-885). -/
def filtrarBarra (filas : List FilaBalance) (nombre : String) : List FilaBalance :=
  filas.filter (fun f => pyLower (strAstype f.barra) = pyLower nombre)

/-- Meter-name filter (informe.py:920-924): strip+upper equality. -/
def filtrarMedidor (filas : List FilaBalance) (nombre : String) : List FilaBalance :=
  filas.filter (fun f =>
    pyUpper (pyTrim (strAstype f.medidor)) = pyUpper (pyTrim nombre))

/-- `df[col_monetario].dropna().astype(float).sum()`. -/
def sumaMonetario (filas : List FilaBalance) : ℚ :=
  (filas.filterMap (fun f => f.monetario)).sum

/-- `df[col_fisico_kwh].dropna().astype(float).sum()`. -/
def sumaFisico (filas : List FilaBalance) : ℚ :=
  (filas.filterMap (fun f => f.fisicoKwh)).sum

/-- A `(concept, value)` pair appended only when the value was found. -/
def paresOpcional (nombre : String) (v : Option ℚ) : List (String × ℚ) :=
  match v with
  | some x => [(nombre, x)]
  | Option.none => []

/-- The company/bus-bar-filtered table (`df_guardar`) when the needed columns
are present. -/
def tablaFiltrada (df : BalanceDF) (nombreEmpresa nombreBarra : String) :
    List FilaBalance :=
  let d1 := if nombreEmpresa ≠ "" then filtrarEmpresa df.filas nombreEmpresa else df.filas
  if nombreBarra ≠ "" then filtrarBarra d1 nombreBarra else d1

/-- The company/bus-bar filter chain of `procesar_mes`
(src/app/gui/informe.py:866-912); `none` models the `return False` taken when
a requested filter column is missing. -/
def filtradoBalance (df : BalanceDF) (nombreEmpresa nombreBarra : String) :
    Option (List FilaBalance) :=
  if nombreEmpresa ≠ "" ∨ nombreBarra ≠ "" then
    let d0 := df.filas
    let d1? : Option (List FilaBalance) :=
      if nombreEmpresa ≠ "" then
        (if df.tieneEmpresa then some (filtrarEmpresa d0 nombreEmpresa) else Option.none)
      else some d0
    match d1? with
    | Option.none => Option.none
    | some d1 =>
      if nombreBarra ≠ "" then
        (if df.tieneBarra then some (filtrarBarra d1 nombreBarra) else Option.none)
      else some d1
  else some df.filas

/-- The keyword parameters `leer_total_ingresos_potencia_firme` accepts
(src/core/leer_excel.py:917-921): besides the positional `anyo` and `mes`,
only `nombre_empresa`. -/
def kwargsAceptadosPotenciaFirme : List String := ["nombre_empresa"]

/-- The keyword arguments `procesar_mes` passes in that call
(src/app/gui/informe.py:942-944). -/
def kwargsPasadosPotenciaFirme : List String := ["nombre_empresa", "carpeta_base"]

/-- Python's calling convention: the call binds only when every passed
keyword is an accepted parameter name; otherwise the callee raises
`TypeError` before its body runs. -/
def llamadaValida (aceptados pasados : List String) : Bool :=
  pasados.all (fun k => aceptados.contains k)

/-- Embedding of the value-gathering and pair-building fragment of
`procesar_mes` (src/app/gui/informe.py:846-1040).  `none` models the
`return False` abort paths: a missing company/bus-bar column, an exception
raised by a reader call, or appendix and `monetario` column both unavailable;
`some pares` is the list handed to `escribir_todos_en_resultado`.  The reader
call at informe.py:942 passes the keyword `carpeta_base`, which
`leer_total_ingresos_potencia_firme` (src/core/leer_excel.py:917) does not
accept; the binding check sits exactly where that call raises `TypeError`,
which the blanket `except Exception` of informe.py:1094 turns into
`return False`. -/
def procesarMes (df : BalanceDF) (nombreEmpresa nombreBarra nombreMedidor : String)
    (archivoAnexo : Option AnexoWb) (totalSscc totalGm : Option ℚ)
    (anyo mes : Nat) : Option (List (String × ℚ)) :=
  match filtradoBalance df nombreEmpresa nombreBarra with
  | Option.none => Option.none
  | some dfGuardar =>
    let dfEnergia :=
      if nombreMedidor ≠ "" ∧ df.tieneMedidor then filtrarMedidor dfGuardar nombreMedidor
      else dfGuardar
    if ¬llamadaValida kwargsAceptadosPotenciaFirme kwargsPasadosPotenciaFirme then
      Option.none
    else
    let totalFirmeAnexo := leerTotalIngresosPotenciaFirme archivoAnexo anyo mes nombreEmpresa
    let totalMonetario? : Option ℚ :=
      match totalFirmeAnexo with
      | some v => some v
      | Option.none =>
        if df.tieneMonetario then some (sumaMonetario dfGuardar) else Option.none
    match totalMonetario? with
    | Option.none => Option.none
    | some totalMonetario =>
      let totalIt := leerIngresosPorIt archivoAnexo anyo mes nombreEmpresa
      let totalPotencia := leerIngresosPorPotencia archivoAnexo anyo mes nombreEmpresa
      let totalEnergia : Option ℚ :=
        if df.tieneMonetario then some (sumaMonetario dfEnergia) else Option.none
      let ssccEf : Option ℚ := if nombreEmpresa ≠ "" then totalSscc else Option.none
      let importacion : Option ℚ :=
        if df.tieneFisico then some (|sumaFisico dfEnergia| / 1000) else Option.none
      some ([("TOTAL INGRESOS POR POTENCIA FIRME CLP", totalMonetario)]
        ++ paresOpcional "INGRESOS POR IT POTENCIA" totalIt
        ++ paresOpcional "INGRESOS POR POTENCIA" totalPotencia
        ++ paresOpcional "TOTAL INGRESOS POR ENERGIA CLP" totalEnergia
        ++ (if nombreEmpresa ≠ "" then paresOpcional "TOTAL INGRESOS POR SSCC CLP" ssccEf else [])
        ++ paresOpcional "Compra Venta Energia GM Holdings CLP" totalGm
        ++ paresOpcional "IMPORTACION MWh" importacion)

/-! ## Archive Locator (`src/core/leer_excel.py`,
`encontrar_archivo_balance` and `encontrar_archivo_cuadros_pago_sscc`)

The filesystem is an explicit list of entries (path components plus a
directory flag), listed in the order `glob`/`iterdir`/`rglob` enumerate them.
The locators only read this list — their type (`FS → ... → Option path`)
exhibits the read-only traversal. -/

/-- One filesystem entry: absolute path components and a directory flag. -/
structure FSEntry where
  ruta : List String
  esDir : Bool
deriving DecidableEq

/-- A filesystem snapshot in enumeration order. -/
abbrev FS := List FSEntry

/-- `Path.exists()` restricted to files. -/
def existeArchivo (fs : FS) (p : List String) : Bool :=
  fs.any (fun e => decide (e.ruta = p) && !e.esDir)

/-- `Path.exists()` restricted to directories (`is_dir` on an existing path). -/
def existeDir (fs : FS) (p : List String) : Bool :=
  fs.any (fun e => decide (e.ruta = p) && e.esDir)

/-- `Path.exists()` for any kind of entry. -/
def existeRuta (fs : FS) (p : List String) : Bool :=
  fs.any (fun e => decide (e.ruta = p))

/-- Immediate children (`iterdir`/non-recursive `glob`). -/
def hijos (fs : FS) (base : List String) : List FSEntry :=
  fs.filter (fun e => decide (e.ruta.length = base.length + 1) && base.isPrefixOf e.ruta)

/-- All strict descendants (`rglob("*")`). -/
def descendientes (fs : FS) (base : List String) : List FSEntry :=
  fs.filter (fun e => base.isPrefixOf e.ruta && decide (e.ruta ≠ base))

/-- Final path component. -/
def nombreEntrada (e : FSEntry) : String :=
  (e.ruta.getLast?).getD ""

/-- Python `s.endswith(suf)`. -/
def pyEndsWith (s suf : String) : Bool :=
  suf.data.isSuffixOf s.data

/-- `pathlib.Path(...).suffix` (empty when there is no dot or the only dot is
the leading one). -/
def pySuffix (nombre : String) : String :=
  let rev := nombre.data.reverse
  if rev.contains '.' && decide ((rev.takeWhile (fun c => c ≠ '.')).length + 1 ≠ nombre.data.length) then
    ⟨'.' :: (rev.takeWhile (fun c => c ≠ '.')).reverse⟩
  else ""

/-- `meses_abrev` (core/descargar_archivos.py) with its `.get(mes, "??")`
default. -/
def mesesAbrev (m : Nat) : String :=
  if m = 1 then "ene" else if m = 2 then "feb" else if m = 3 then "mar"
  else if m = 4 then "abr" else if m = 5 then "may" else if m = 6 then "jun"
  else if m = 7 then "jul" else if m = 8 then "ago" else if m = 9 then "sep"
  else if m = 10 then "oct" else if m = 11 then "nov" else if m = 12 then "dic"
  else "??"

/-- `Balance_{YY}{MM}D.xlsm`. -/
def nombreArchivoBalance (anyo mes : Nat) : String :=
  "Balance_" ++ ultimos2 (natStr anyo) ++ pad2 mes ++ "D.xlsm"

/-- The folders matched by the glob `*Resultados_{YY}{MM}_BD01` under
`descomprimidos`. -/
def carpetasGlobBalance (fs : FS) (anyo mes : Nat) (carpetaBase : List String) :
    List FSEntry :=
  (hijos fs (carpetaBase ++ ["descomprimidos"])).filter (fun e =>
    pyEndsWith (nombreEntrada e) ("Resultados_" ++ ultimos2 (natStr anyo) ++ pad2 mes ++ "_BD01"))

/-- Recursive scan of one matched folder's subdirectories for the exact file
name (src/core/leer_excel.py:69-75). -/
def escaneoAnidadoBalance (fs : FS) (carpeta : List String) (nombre : String) :
    Option (List String) :=
  (descendientes fs carpeta).findSome? (fun sub =>
    if sub.esDir && existeArchivo fs (sub.ruta ++ [nombre]) then
      some (sub.ruta ++ [nombre])
    else Option.none)

/-- Wide search over every `descomprimidos` child
(src/core/leer_excel.py:78-93): direct hit, then `rglob(nombre)`. -/
def busquedaAmpliaBalance (fs : FS) (descomp : List String) (nombre : String) :
    Option (List String) :=
  (hijos fs descomp).findSome? (fun carpeta =>
    if carpeta.esDir then
      (if existeArchivo fs (carpeta.ruta ++ [nombre]) then
        some (carpeta.ruta ++ [nombre])
      else
        (descendientes fs carpeta.ruta).findSome? (fun a =>
          if !a.esDir && decide (nombreEntrada a = nombre) then some a.ruta
          else Option.none))
    else Option.none)

/-- Embedding of `encontrar_archivo_balance` (src/core/leer_excel.py:15). -/
def encontrarArchivoBalance (fs : FS) (anyo mes : Nat) (carpetaBase : List String) :
    Option (List String) :=
  if mes < 1 || 12 < mes then Option.none
  else
    let nombre := nombreArchivoBalance anyo mes
    let descomp := carpetaBase ++ ["descomprimidos"]
    if !existeDir fs descomp then Option.none
    else
      match (carpetasGlobBalance fs anyo mes carpetaBase).findSome? (fun carpeta =>
        if existeArchivo fs (carpeta.ruta ++ [nombre]) then
          some (carpeta.ruta ++ [nombre])
        else escaneoAnidadoBalance fs carpeta.ruta nombre) with
      | some p => some p
      | Option.none => busquedaAmpliaBalance fs descomp nombre

/-- Patterns 2 onward of the Balance locator: the nested scans of the matched
folders followed by the wide search, with the same inputs. -/
def escaneosRecursivosBalance (fs : FS) (anyo mes : Nat) (carpetaBase : List String) :
    Option (List String) :=
  match (carpetasGlobBalance fs anyo mes carpetaBase).findSome? (fun carpeta =>
    escaneoAnidadoBalance fs carpeta.ruta (nombreArchivoBalance anyo mes)) with
  | some p => some p
  | Option.none =>
    busquedaAmpliaBalance fs (carpetaBase ++ ["descomprimidos"]) (nombreArchivoBalance anyo mes)

/-- The thirteen exact SSCC payment-table file names
(src/core/leer_excel.py:196-210). -/
def nombresCuadrosSscc (anyo mes : Nat) : List String :=
  let yy := ultimos2 (natStr anyo)
  let yymm := yy ++ pad2 mes
  let ma := mesesAbrev mes
  ["1_CUADROS_PAGO_SSCC_" ++ yymm ++ "_def.xlsx",
   "1_CUADROS_PAGO_SSCC_" ++ yymm ++ "_def.xlsb",
   "1_CUADROS_PAGO_SSCC_" ++ yymm ++ "_def.xlsm",
   "EXCEL 1_CUADROS_PAGO_SSCC_" ++ yymm ++ "_def.xlsx",
   "EXCEL 1_CUADROS_PAGO_SSCC_" ++ yymm ++ "_def.xlsb",
   "EXCEL 1_CUADROS_PAGO_SSCC_" ++ yymm ++ "_def.xlsm",
   "1_CUADROS_PAGO_SSCC_" ++ yy ++ ma ++ "_def.xlsx",
   "1_CUADROS_PAGO_SSCC_" ++ yy ++ ma ++ "_def.xlsb",
   "1_CUADROS_PAGO_SSCC_" ++ yy ++ ma ++ "_def.xlsm",
   "Cuadros de Pago_SSCC_" ++ ma ++ yy ++ "_def.xlsx",
   "Cuadros de Pago_SSCC_" ++ ma ++ yy ++ "_def.xlsb",
   "Cuadros de Pago_SSCC_" ++ yymm ++ ".xlsx",
   "Cuadros de Pago_SSCC_" ++ yymm ++ ".xlsb"]

/-- Exact-name lookup of a name list inside one folder. -/
def buscarExactosEn (fs : FS) (carpeta : List String) (nombres : List String) :
    Option (List String) :=
  nombres.findSome? (fun n =>
    if existeArchivo fs (carpeta ++ [n]) then some (carpeta ++ [n]) else Option.none)

/-- Spreadsheet extension test (`archivo.suffix.lower() in (...)`). -/
def extensionHojaCalculo (nombre : String) : Bool :=
  [".xlsx", ".xlsb", ".xlsm"].contains (pyLower (pySuffix nombre))

/-- Keyword scan used by SSCC phases 1 and 3: any spreadsheet whose name
contains `CUADROS_PAGO_SSCC` (upper-cased) and the literal `yymm`. -/
def escaneoClaveSscc (fs : FS) (raiz : List String) (yymm : String) :
    Option (List String) :=
  (descendientes fs raiz).findSome? (fun a =>
    if !a.esDir && extensionHojaCalculo (nombreEntrada a) &&
        containsSub (pyUpper (nombreEntrada a)) "CUADROS_PAGO_SSCC" &&
        containsSub (nombreEntrada a) yymm then
      some a.ruta
    else Option.none)

/-- Relaxed keyword scan of one `SSCC` folder (src/core/leer_excel.py:238-255). -/
def escaneoSsccCarpeta (fs : FS) (raiz : List String) (yymm ma yy : String) :
    Option (List String) :=
  (descendientes fs raiz).findSome? (fun a =>
    if !a.esDir && extensionHojaCalculo (nombreEntrada a) then
      let nU := pyUpper (nombreEntrada a)
      let nL := pyLower (nombreEntrada a)
      let tienePago := (containsSub nU "PAGO" && containsSub nU "SSCC") ||
        (containsSub nU "CUADROS" && containsSub nU "SSCC") ||
        containsSub nL "cuadros_pago_sscc"
      let tienePeriodo := containsSub (nombreEntrada a) yymm ||
        containsSub nL (ma ++ yy) || containsSub nL (yy ++ ma)
      if tienePago && tienePeriodo then some a.ruta else Option.none
    else Option.none)

/-- The two manually-searched folders `base/sscc` and `base`. -/
def carpetasExtraSscc (carpetaBase : List String) : List (List String) :=
  [carpetaBase ++ ["sscc"], carpetaBase]

/-- The `descomprimidos` children whose name contains `SSCC`. -/
def carpetasSsccDescomp (fs : FS) (carpetaBase : List String) : List FSEntry :=
  (hijos fs (carpetaBase ++ ["descomprimidos"])).filter (fun e =>
    e.esDir && containsSub (nombreEntrada e) "SSCC")

/-- Embedding of `encontrar_archivo_cuadros_pago_sscc`
(src/core/leer_excel.py:175). -/
def encontrarArchivoCuadrosPagoSscc (fs : FS) (anyo mes : Nat)
    (carpetaBase : List String) : Option (List String) :=
  if mes < 1 || 12 < mes then Option.none
  else
    let yy := ultimos2 (natStr anyo)
    let yymm := yy ++ pad2 mes
    let ma := mesesAbrev mes
    let nombres := nombresCuadrosSscc anyo mes
    let descomp := carpetaBase ++ ["descomprimidos"]
    match (carpetasExtraSscc carpetaBase).findSome? (fun extra =>
      if existeRuta fs extra then
        match buscarExactosEn fs extra nombres with
        | some p => some p
        | Option.none => escaneoClaveSscc fs extra yymm
      else Option.none) with
    | some p => some p
    | Option.none =>
      if !existeDir fs descomp then Option.none
      else
        match (carpetasSsccDescomp fs carpetaBase).findSome? (fun carpeta =>
          match buscarExactosEn fs carpeta.ruta nombres with
          | some p => some p
          | Option.none => escaneoSsccCarpeta fs carpeta.ruta yymm ma yy) with
        | some p => some p
        | Option.none => escaneoClaveSscc fs descomp yymm

/-- Recursive-scan-only chain of the SSCC locator (what remains of phases 1-3
once every exact-name lookup has failed). -/
def escaneosRecursivosSscc (fs : FS) (anyo mes : Nat) (carpetaBase : List String) :
    Option (List String) :=
  let yy := ultimos2 (natStr anyo)
  let yymm := yy ++ pad2 mes
  let ma := mesesAbrev mes
  let descomp := carpetaBase ++ ["descomprimidos"]
  match (carpetasExtraSscc carpetaBase).findSome? (fun extra =>
    if existeRuta fs extra then escaneoClaveSscc fs extra yymm else Option.none) with
  | some p => some p
  | Option.none =>
    if !existeDir fs descomp then Option.none
    else
      match (carpetasSsccDescomp fs carpetaBase).findSome? (fun carpeta =>
        escaneoSsccCarpeta fs carpeta.ruta yymm ma yy) with
      | some p => some p
      | Option.none => escaneoClaveSscc fs descomp yymm

/-! ## Template Writer (`src/Paquete para Cliente/core/plantilla_cliente.py`)

A worksheet is an association list from `(row, column)` (1-based, as COM and
openpyxl use) to cells; absent keys read as the empty default cell, and a
write conses a binding (lookup takes the first, i.e. newest, binding).  A
workbook is its named sheets in native order.  The on-disk workbook, the one
Excel opened in memory, and the number of effective saves are threaded
explicitly: `wb.Save()` followed by `wb.Close(SaveChanges=True)` with no
intervening modification performs one effective save, and
`wb.Close(SaveChanges=False)` after an unresolved concept performs none (the
temp-copy path of `_ruta_local_para_excel` copies identical bytes back and is
therefore content-invisible). -/

/-- Template-side cell value. -/
inductive Val where
  | empty : Val
  | str (s : String) : Val
  | num (q : ℚ) : Val
  | date (y m d : Nat) : Val
deriving DecidableEq

/-- Python `str(raw)` on a template cell value. -/
def Val.pyStr : Val → String
  | Val.empty => "None"
  | Val.str s => s
  | Val.num q => ratPyStr q
  | Val.date y m d => natStr y ++ "-" ++ pad2 m ++ "-" ++ pad2 d ++ " 00:00:00"

/-- Python truthiness of a template cell value. -/
def Val.truthy : Val → Bool
  | Val.empty => false
  | Val.str s => decide (s ≠ "")
  | Val.num q => decide (q ≠ 0)
  | Val.date _ _ _ => true

/-- A cell: value plus formatting (an opaque style id standing for
font/border/fill/alignment, and the number format). -/
structure Cell where
  val : Val
  estilo : Nat
  numFmt : String
deriving DecidableEq

/-- The default (absent) cell. -/
def celdaVacia : Cell := ⟨Val.empty, 0, "General"⟩

/-- A worksheet. -/
abbrev Hoja := List ((Nat × Nat) × Cell)

/-- A workbook: named sheets in native order. -/
abbrev Libro := List (String × Hoja)

/-- Cell read (absent cells read as the default cell). -/
def getCelda (ws : Hoja) (r c : Nat) : Cell :=
  ((ws.find? (fun e => decide (e.1 = (r, c)))).map (fun e => e.2)).getD celdaVacia

/-- Value read, returning the stored value.  (COM `Range.Value` — and an
openpyxl reload — coerces a number stored in a date-formatted cell to a date
on read-back; the theorems below only ever read a written-to cell back
through a `General`-format cell, where stored and read values agree, or keep
written cells out of every scanned range.) -/
def getVal (ws : Hoja) (r c : Nat) : Val :=
  (getCelda ws r c).val

/-- Raw cell write. -/
def ponCelda (ws : Hoja) (r c : Nat) (cel : Cell) : Hoja :=
  ((r, c), cel) :: ws

/-- `ws.Cells(r, c).Value = v` — replaces the value, keeps the formatting. -/
def escribeVal (ws : Hoja) (r c : Nat) (v : Val) : Hoja :=
  ponCelda ws r c { getCelda ws r c with val := v }

/-- `cell.NumberFormat = nf`. -/
def ponNumFmt (ws : Hoja) (r c : Nat) (nf : String) : Hoja :=
  ponCelda ws r c { getCelda ws r c with numFmt := nf }

/-- `UsedRange.Rows.Count` / `ws.max_row`, modelled as the largest used row
index (content is taken to start at row 1). -/
def filasUsadas (ws : Hoja) : Nat :=
  (ws.map (fun e => e.1.1)).foldr max 0

/-- `UsedRange.Columns.Count` / `ws.max_column`. -/
def colsUsadas (ws : Hoja) : Nat :=
  (ws.map (fun e => e.1.2)).foldr max 0

/-- `VARIANTES_CONCEPTOS`
(src/Paquete para Cliente/core/plantilla_cliente.py:22). -/
def variantesConceptos (t : String) : List String :=
  if t = "INGRESOS POR IT POTENCIA" then
    ["IT POTENCIA", "INGRESOS IT POTENCIA", "02. IT POTENCIA", "INGRESOS POR IT",
     "IT Potencia", "Ingresos por IT Potencia", "IT/POTENCIA", "IT-POTENCIA",
     "POR IT POTENCIA", "ASIGNACION IT POTENCIA"]
  else if t = "INGRESOS POR POTENCIA" then
    ["INGRESOS POTENCIA", "01. INGRESOS POR POTENCIA", "Ingresos por Potencia",
     "POR POTENCIA"]
  else []

/-- `EXCLUIR_AL_BUSCAR`
(src/Paquete para Cliente/core/plantilla_cliente.py:44). -/
def excluirAlBuscar (t : String) : List String :=
  if t = "INGRESOS POR POTENCIA" then ["FIRME"] else []

/-- Month-column test on one header cell (plantilla_cliente.py:126-137 and the
identical `_es_mes`): a date cell matches by year and month; any other
non-empty cell matches when its space-stripped lower-cased text starts with
`abbrev-2digityear` or `abbrev-4digityear`. -/
def esCeldaMes (v : Val) (anyo mes : Nat) : Bool :=
  match v with
  | Val.empty => false
  | Val.date y m _ => decide (y = anyo) && decide (m = mes)
  | otro =>
    let enc2 := mesesAbrev mes ++ "-" ++ ultimos2 (natStr anyo)
    let enc4 := mesesAbrev mes ++ "-" ++ natStr anyo
    let valor := pyLower (quitarEspacios (pyTrim otro.pyStr))
    pyStartsWith valor (pyLower enc2) || pyStartsWith valor (pyLower enc4)

/-- The twelve month abbreviations of the writer's `patron_mes` regex. -/
def abrevMeses : List String :=
  ["ene", "feb", "mar", "abr", "may", "jun", "jul", "ago", "sep", "oct", "nov", "dic"]

/-- The regex `^(ene|...|dic)[\s\-]*\d{2,4}$` (case-insensitive) applied to
the space-stripped text. -/
def patronMesMatch (s : String) : Bool :=
  let cs := (pyLower s).data
  abrevMeses.any (fun a =>
    a.data.isPrefixOf cs &&
    (let resto := cs.drop 3
     let ds := resto.dropWhile (fun c => c = '-' || c.isWhitespace)
     ds.all Char.isDigit && decide (2 ≤ ds.length) && decide (ds.length ≤ 4)))

/-- Month-like column test during creation, win32 variant
(plantilla_cliente.py:472-479): date cells count, otherwise the cell must be
truthy and its stripped text must match the month pattern. -/
def esColumnaMesW32 (v : Val) : Bool :=
  match v with
  | Val.empty => false
  | Val.date _ _ _ => true
  | otro => otro.truthy && patronMesMatch (quitarEspacios (pyTrim otro.pyStr))

/-- Month-like column test, openpyxl variant (`_es_columna_mes`,
plantilla_cliente.py:283-289): no truthiness check. -/
def esColumnaMesOpx (v : Val) : Bool :=
  match v with
  | Val.empty => false
  | Val.date _ _ _ => true
  | otro => patronMesMatch (quitarEspacios (pyTrim otro.pyStr))

/-- Row-major scan for the period's month column over rows 1..15 and columns
1..`mc` (plantilla_cliente.py:441-456); returns the matching (row, column). -/
def buscarColMesRC (ws : Hoja) (anyo mes mr mc : Nat) : Option (Nat × Nat) :=
  (List.range' 1 (min 15 mr)).findSome? fun r =>
    (List.range' 1 mc).findSome? fun c =>
      if esCeldaMes (getVal ws r c) anyo mes then some (r, c) else Option.none

/-- The found month column. -/
def buscarColMes (ws : Hoja) (anyo mes mr mc : Nat) : Option Nat :=
  (buscarColMesRC ws anyo mes mr mc).map (fun rc => rc.2)

/-- First row among 1..15 with any non-empty cell
(plantilla_cliente.py:459-463). -/
def filaEncabezados (ws : Hoja) (mr mc : Nat) : Option Nat :=
  (List.range' 1 (min 15 mr)).find? fun r =>
    (List.range' 1 mc).any fun c => decide (getVal ws r c ≠ Val.empty)

/-- `ws.Columns(k).Insert` / `ws.insert_cols(k)`: every cell in a column
`≥ k` moves one column right; column `k` becomes empty. -/
def insertarColumna (ws : Hoja) (k : Nat) : Hoja :=
  ws.map (fun e => if k ≤ e.1.2 then ((e.1.1, e.1.2 + 1), e.2) else e)

/-- Copy one cell's formatting (style and number format), keeping the
destination value (`PasteSpecial(Paste=xlPasteFormats)` / `_copiar_estilo`). -/
def copiarFormatoCelda (ws : Hoja) (r src dst : Nat) : Hoja :=
  ponCelda ws r dst ⟨(getCelda ws r dst).val, (getCelda ws r src).estilo,
    (getCelda ws r src).numFmt⟩

/-- Copy formatting for rows 1..n from column `src` to column `dst`. -/
def copiarFormatos (ws : Hoja) (n src dst : Nat) : Hoja :=
  (List.range' 1 n).foldl (fun w r => copiarFormatoCelda w r src dst) ws

/-- The `TOTAL INGRESOS` anchor fallback (plantilla_cliente.py:500-509):
first cell in columns A/B (rows 1..99 within bounds) whose truthy text
contains `TOTAL INGRESOS`; insert right of it, defaulting to column 2. -/
def anclaTotalIngresos (ws : Hoja) (mr : Nat) : Nat :=
  match (List.range' 1 (min mr 99)).findSome? (fun r =>
    ([1, 2] : List Nat).findSome? (fun cc =>
      let v := getVal ws r cc
      if v.truthy && containsSub (pyUpper v.pyStr) "TOTAL INGRESOS" then some (cc + 1)
      else Option.none)) with
  | some c => c
  | Option.none => 2

/-- Month-column creation, win32 variant (plantilla_cliente.py:458-515),
given the header row `er`: clone the rightmost month-like column's formatting
into a freshly inserted column to its right (only rows up to
`min mr (fu+30)`), stamp the header with `datetime(anyo, mes, 1)` and inherit
the cloned header's number format when non-blank; without any month-like
column, insert at the `TOTAL INGRESOS` anchor with format `mmm-yy`. -/
def crearColumnaMesW32 (ws : Hoja) (er anyo mes mr mc fu : Nat) : Hoja × Nat :=
  let columnasMes := (List.range' 1 mc).filter (fun c => esColumnaMesW32 (getVal ws er c))
  if columnasMes.isEmpty then
    let colIns := anclaTotalIngresos ws mr
    let ws1 := insertarColumna ws colIns
    let ws2 := escribeVal ws1 er colIns (Val.date anyo mes 1)
    (ponNumFmt ws2 er colIns "mmm-yy", colIns)
  else
    let base := columnasMes.foldl max 0
    let nuevo := base + 1
    let ws1 := insertarColumna ws nuevo
    let filasCopiar := min mr (fu + 30)
    let ws2 := copiarFormatos ws1 filasCopiar base nuevo
    let ws3 := escribeVal ws2 er nuevo (Val.date anyo mes 1)
    let baseFmt := (getCelda ws3 er base).numFmt
    let ws4 := if pyTrim baseFmt ≠ "" then ponNumFmt ws3 er nuevo baseFmt else ws3
    (ws4, nuevo)

/-- Month-column creation, openpyxl variant (plantilla_cliente.py:323-350):
formats are copied over rows 1..mr and the header inherits the base number
format unless it is empty (`or "mmm-yy"`). -/
def crearColumnaMesOpx (ws : Hoja) (er anyo mes mr mc : Nat) : Hoja × Nat :=
  let columnasMes := (List.range' 1 mc).filter (fun c => esColumnaMesOpx (getVal ws er c))
  if columnasMes.isEmpty then
    let colIns := anclaTotalIngresos ws mr
    let ws1 := insertarColumna ws colIns
    let ws2 := escribeVal ws1 er colIns (Val.date anyo mes 1)
    (ponNumFmt ws2 er colIns "mmm-yy", colIns)
  else
    let base := columnasMes.foldl max 0
    let nuevo := base + 1
    let ws1 := insertarColumna ws nuevo
    let ws2 := copiarFormatos ws1 mr base nuevo
    let ws3 := escribeVal ws2 er nuevo (Val.date anyo mes 1)
    let nf := (getCelda ws3 er base).numFmt
    (ponNumFmt ws3 er nuevo (if nf = "" then "mmm-yy" else nf), nuevo)

/-- Exclusion-token filter on an upper-cased cell text (`_celda_valida`). -/
def celdaValida (excluir : List String) (valU : String) : Bool :=
  !(excluir.any (fun ex => containsSub valU (pyUpper ex)))

/-- Concept-row resolution, win32 variant (plantilla_cliente.py:517-542):
for each label variant in order, scan columns B, A, C, D top-down for a
non-`None` cell whose upper-cased text contains the label and no exclusion
token. -/
def buscarFilaConceptoW32 (ws : Hoja) (mr : Nat) (texto : String) : Option Nat :=
  let textos := texto :: variantesConceptos texto
  let excluir := excluirAlBuscar texto
  textos.findSome? fun tb =>
    let tU := pyUpper tb
    ([2, 1, 3, 4] : List Nat).findSome? fun col =>
      (List.range' 1 mr).findSome? fun r =>
        let v := getVal ws r col
        if v = Val.empty then Option.none
        else
          let valU := pyUpper (pyTrim v.pyStr)
          if containsSub valU tU && celdaValida excluir valU then some r
          else Option.none

/-- Concept-row resolution, openpyxl variant (plantilla_cliente.py:360-373):
identical except that falsy cells (`if raw:`) are skipped. -/
def buscarFilaConceptoOpx (ws : Hoja) (mr : Nat) (texto : String) : Option Nat :=
  let textos := texto :: variantesConceptos texto
  let excluir := excluirAlBuscar texto
  textos.findSome? fun tb =>
    let tU := pyUpper tb
    ([2, 1, 3, 4] : List Nat).findSome? fun col =>
      (List.range' 1 mr).findSome? fun r =>
        let v := getVal ws r col
        if v.truthy then
          let valU := pyUpper (pyTrim v.pyStr)
          if containsSub valU tU && celdaValida excluir valU then some r
          else Option.none
        else Option.none

/-- `"resultado"` sheet-name test (case-insensitive, stripped). -/
def esHojaResultado (nombre : String) : Bool :=
  pyLower (pyTrim nombre) = "resultado"

/-- First sheet named `Resultado`. -/
def hojaResultado (wb : Libro) : Option Hoja :=
  (wb.find? (fun p => esHojaResultado p.1)).map (fun p => p.2)

/-- Store back the (first) `Resultado` sheet. -/
def ponHojaResultado : Libro → Hoja → Libro
  | [], _ => []
  | (n, s) :: resto, ns =>
    if esHojaResultado n then (n, ns) :: resto else (n, s) :: ponHojaResultado resto ns

/-- The writer's failure modes. -/
inductive ErrorEscritura where
  | archivoNoEncontrado : ErrorEscritura
  | sinHojaResultado : ErrorEscritura
  | sinFilaEncabezados : ErrorEscritura
  | conceptoNoEncontrado (texto : String) : ErrorEscritura
deriving DecidableEq

/-- Observable outcome of one writer invocation: the raised error (if any),
the resulting on-disk workbook (`none` = no file), and the number of
effective saves performed. -/
structure ResultadoEscritura where
  err : Option ErrorEscritura
  disco : Option Libro
  guardados : Nat
deriving DecidableEq

/-- The in-memory pair loop of `_escribir_todos_con_win32`
(plantilla_cliente.py:517-552): resolve-and-write each pair in order; an
unresolved concept aborts with its label. -/
def escribirPares (ws : Hoja) (mr colMes : Nat) :
    List (String × ℚ) → Except String Hoja
  | [] => Except.ok ws
  | (texto, valor) :: resto =>
    match buscarFilaConceptoW32 ws mr texto with
    | Option.none => Except.error texto
    | some fila => escribirPares (escribeVal ws fila colMes (Val.num valor)) mr colMes resto

/-- Commit step of `_escribir_todos_con_win32`: on an unresolved concept the
workbook is closed without saving (disk unchanged, zero saves); on success
`wb.Save()` persists the memory state once. -/
def terminarEscrituraW32 (wb : Libro) (ws : Hoja) (mr colMes : Nat)
    (pares : List (String × ℚ)) : Option ErrorEscritura × Libro × Nat :=
  match escribirPares ws mr colMes pares with
  | Except.error t => (some (ErrorEscritura.conceptoNoEncontrado t), wb, 0)
  | Except.ok wsF => (Option.none, ponHojaResultado wb wsF, 1)

/-- Embedding of `_escribir_todos_con_win32` (plantilla_cliente.py:392-565):
locate `Resultado`, capture the used-range bounds once, locate or create the
month column, then resolve and write every pair and save once at the end. -/
def escribirTodosConWin32 (wb : Libro) (anyo mes : Nat)
    (pares : List (String × ℚ)) : Option ErrorEscritura × Libro × Nat :=
  match hojaResultado wb with
  | Option.none => (some ErrorEscritura.sinHojaResultado, wb, 0)
  | some ws0 =>
    let fu := filasUsadas ws0
    let mr := max fu 50 + 20
    let mc := max (colsUsadas ws0) 30
    match buscarColMes ws0 anyo mes mr mc with
    | some colMes => terminarEscrituraW32 wb ws0 mr colMes pares
    | Option.none =>
      match filaEncabezados ws0 mr mc with
      | Option.none => (some ErrorEscritura.sinFilaEncabezados, wb, 0)
      | some er =>
        let par := crearColumnaMesW32 ws0 er anyo mes mr mc fu
        terminarEscrituraW32 wb par.1 mr par.2 pares

/-- Embedding of `_escribir_con_openpyxl` (plantilla_cliente.py:246-384):
one concept, one full open-resolve-write-save session. -/
def escribirConOpenpyxl (wb : Libro) (anyo mes : Nat) (valor : ℚ)
    (texto : String) : Option ErrorEscritura × Libro × Nat :=
  match hojaResultado wb with
  | Option.none => (some ErrorEscritura.sinHojaResultado, wb, 0)
  | some ws0 =>
    let mr := max (filasUsadas ws0) 50 + 20
    let mc := max (colsUsadas ws0) 30
    let er := (filaEncabezados ws0 mr mc).getD 1
    let par :=
      match buscarColMes ws0 anyo mes mr mc with
      | some c => (ws0, c)
      | Option.none => crearColumnaMesOpx ws0 er anyo mes mr mc
    match buscarFilaConceptoOpx par.1 mr texto with
    | Option.none => (some (ErrorEscritura.conceptoNoEncontrado texto), wb, 0)
    | some fila =>
      (Option.none, ponHojaResultado wb (escribeVal par.1 fila par.2 (Val.num valor)), 1)

/-- The per-pair fallback loop of `escribir_todos_en_resultado`
(plantilla_cliente.py:610-619): each pair runs its own openpyxl session; an
error stops the loop with every earlier session already saved. -/
def bucleOpenpyxl (wb : Libro) (anyo mes : Nat) :
    List (String × ℚ) → Nat → ResultadoEscritura
  | [], n => ⟨Option.none, some wb, n⟩
  | (texto, valor) :: resto, n =>
    match escribirConOpenpyxl wb anyo mes valor texto with
    | (some e, wb2, k) => ⟨some e, some wb2, n + k⟩
    | (Option.none, wb2, k) => bucleOpenpyxl wb2 anyo mes resto (n + k)

/-- Embedding of `escribir_todos_en_resultado` (plantilla_cliente.py:594):
empty pair lists return before any filesystem access; a missing destination
raises `FileNotFoundError`; on Windows with pywin32 the single-session writer
runs, otherwise the per-pair openpyxl loop. -/
def escribirTodosEnResultado (esWin32 conPywin32 : Bool) (disco : Option Libro)
    (anyo mes : Nat) (pares : List (String × ℚ)) : ResultadoEscritura :=
  if pares.isEmpty then ⟨Option.none, disco, 0⟩
  else
    match disco with
    | Option.none => ⟨some ErrorEscritura.archivoNoEncontrado, Option.none, 0⟩
    | some wb =>
      if esWin32 && conPywin32 then
        match escribirTodosConWin32 wb anyo mes pares with
        | (e, wb2, n) => ⟨e, some wb2, n⟩
      else bucleOpenpyxl wb anyo mes pares 0

/-- Template with a December-2025 month column and one resolvable concept
row. -/
def hojaContraC1 : Hoja :=
  [((1, 6), ⟨Val.date 2025 12 1, 0, "mmm-yy"⟩),
   ((2, 2), ⟨Val.str "CONCEPTO UNO", 0, "General"⟩)]

/-- Its workbook. -/
def libroContraC1 : Libro := [("Resultado", hojaContraC1)]

/-- A resolvable pair followed by an unresolvable one. -/
def paresContraC1 : List (String × ℚ) := [("CONCEPTO UNO", 5), ("CONCEPTO DOS", 7)]

/-- A concrete template: text month headers `oct-25`, `nov-25` on row 1 and
a formatted value cell below `nov-25`. -/
def plantillaC4 : Hoja :=
  [((1, 5), ⟨Val.str "oct-25", 3, "mmm-yy"⟩),
   ((1, 6), ⟨Val.str "nov-25", 7, "mmm-yy"⟩),
   ((2, 6), ⟨Val.num 10, 9, "#,##0"⟩)]

/-- Extensional sheet equality: equal cell reads everywhere. -/
def hojasEquivalentes (h1 h2 : Hoja) : Prop :=
  ∀ r c, getCelda h1 r c = getCelda h2 r c

/-- Extensional workbook equality: same sheet names in order and pointwise
equal sheets. -/
def librosEquivalentes (b1 b2 : Libro) : Prop :=
  b1.map Prod.fst = b2.map Prod.fst ∧
    List.Forall₂ (fun p q : String × Hoja => hojasEquivalentes p.2 q.2) b1 b2

/-- A template whose `FOO` concept label sits on the month-header row: the
month column is headed by the text `dic-25` in a `General`-format cell at
(1,5) and the concept text is at (1,2).  With a `General` number format the
number the first run writes into (1,5) also reads back through COM
`Range.Value` (and an openpyxl reload) as a number, so the modelled rerun
follows the real one. -/
def hojaContraC2 : Hoja :=
  [((1, 2), ⟨Val.str "FOO", 0, "General"⟩),
   ((1, 5), ⟨Val.str "dic-25", 0, "General"⟩)]

/-- The counterexample workbook for the idempotence claim. -/
def libroContraC2 : Libro := [("Resultado", hojaContraC2)]

/-- The written pairs of the idempotence counterexample. -/
def paresContraC2 : List (String × ℚ) := [("FOO", 3)]

/-- A well-behaved template: the `dic-25` month column at (1,5) and the
concept label `FOO` at (16,2), below every row the month scan reads. -/
def hojaTestC2 : Hoja :=
  [((1, 5), ⟨Val.date 2025 12 1, 2, "mmm-yy"⟩),
   ((16, 2), ⟨Val.str "FOO", 0, "General"⟩)]

/-- The workbook of the re-run stability witness. -/
def libroTestC2 : Libro := [("Resultado", hojaTestC2)]

/-! ## Claims about the Value Parser and the download client -/

/-- C3.  `_parsear_valor_monetario` treats `.` as thousands separator and `,`
as decimal separator (`parse("46.709.214") = 46709214.0`,
`parse("1.234,56") = 1234.56`), maps `None` to absent, passes native ints and
floats through unchanged as numbers, and maps every unparseable input (one
whose normalised text `float(...)` rejects) to absent rather than raising. -/
theorem parseadorMonetarioCorrecto :
    parsearValorMonetario (PyVal.str "46.709.214") = some 46709214 ∧
    parsearValorMonetario (PyVal.str "1.234,56") = some (1234.56 : ℚ) ∧
    parsearValorMonetario PyVal.none = Option.none ∧
    (∀ n : ℤ, parsearValorMonetario (PyVal.int n) = some (n : ℚ)) ∧
    (∀ q : ℚ, parsearValorMonetario (PyVal.float q) = some q) ∧
    (∀ s : String, pyFloat (normalizarMonetario s) = Option.none →
      parsearValorMonetario (PyVal.str s) = Option.none) := by
  refine ⟨?_, ?_, rfl, fun n => rfl, fun q => rfl, fun s h => ?_⟩
  · set_option maxRecDepth 100000 in with_unfolding_all rfl
  · with_unfolding_all rfl
  · simpa [parsearValorMonetario] using h

/-- Witness for C3: the unparseable-input clause applied to a concrete
non-numeric string. -/
theorem parseadorMonetarioCorrectoWitness :
    parsearValorMonetario (PyVal.str "sin datos") = Option.none :=
  parseadorMonetarioCorrecto.2.2.2.2.2 "sin datos" (by with_unfolding_all rfl)

/-- C9 (code bug).  The 403 branch of `descargar_archivo` is dead:
`raise_for_status` raises only for status codes at or above 400, for which
`e.response` is falsy (`Response.__bool__` is `ok`, i.e. status < 400), so
`codigo_error` is always `None`.  An HTTP 403 therefore yields the generic
result `(False, None, "Error HTTP None: " ++ str(e))`, identical to a 500
with the same exception text, never carries the code 403, and never produces
the dedicated "content not available" message. -/
theorem descargaSinCodigo403 :
    (∀ texto : String, descargarArchivo (RespuestaHTTP.respuesta 403 texto)
      = ⟨false, Option.none, "Error HTTP None: " ++ texto⟩) ∧
    (∀ texto : String, descargarArchivo (RespuestaHTTP.respuesta 403 texto)
      = descargarArchivo (RespuestaHTTP.respuesta 500 texto)) ∧
    (∀ texto : String,
      (descargarArchivo (RespuestaHTTP.respuesta 403 texto)).codigoError ≠ some 403) ∧
    (∀ texto : String, (descargarArchivo (RespuestaHTTP.respuesta 403 texto)).mensaje
      ≠ "El contenido no está disponible (403 Forbidden)") := by
  have hval : ∀ texto : String, descargarArchivo (RespuestaHTTP.respuesta 403 texto)
      = ⟨false, Option.none, "Error HTTP None: " ++ texto⟩ := by
    intro texto
    with_unfolding_all rfl
  refine ⟨hval, fun texto => by with_unfolding_all rfl, ?_, ?_⟩
  · intro texto h
    rw [hval texto] at h
    exact Option.noConfusion h
  · intro texto h
    rw [hval texto] at h
    have hd : ('E' : Char) :: 'r' :: ("ror HTTP None: ".data ++ texto.data)
        = 'E' :: 'l' :: " contenido no está disponible (403 Forbidden)".data :=
      congrArg String.data h
    injection hd with h1 h2
    injection h2 with h3 h4
    exact absurd h3 (by decide)
/-! ## Character and string lemmas shared by the resolver proofs -/

/-- Evaluating `Char.ofNat` at a valid code point. -/
theorem charToNatOfNat (n : Nat) (h : n.isValidChar) : (Char.ofNat n).toNat = n := by
  rw [Char.ofNat, dif_pos h]
  simp [Char.ofNatAux, Char.toNat, UInt32.toNat, BitVec.toNat_ofNatLt]

/-- Characters outside the ASCII uppercase range are fixed by `toLower`. -/
theorem charToLowerFijo {c : Char} (h : c.toNat < 65) : c.toLower = c := by
  rw [Char.toLower, if_neg]
  omega

/-- Lowercasing is idempotent on characters. -/
theorem charToLowerIdem (c : Char) : c.toLower.toLower = c.toLower := by
  by_cases h : c.toNat ≥ 65 ∧ c.toNat ≤ 90
  · have hv : (c.toNat + 32).isValidChar := Or.inl (by omega)
    have h1 : c.toLower = Char.ofNat (c.toNat + 32) := by rw [Char.toLower, if_pos h]
    have hn : ¬((Char.ofNat (c.toNat + 32)).toNat ≥ 65 ∧
        (Char.ofNat (c.toNat + 32)).toNat ≤ 90) := by
      rw [charToNatOfNat _ hv]
      omega
    rw [h1, Char.toLower, if_neg hn]
  · have h1 : c.toLower = c := by rw [Char.toLower, if_neg h]
    rw [h1]
    exact h1

/-- `pyLower` distributes over concatenation. -/
theorem pyLowerAppend (a b : String) : pyLower (a ++ b) = pyLower a ++ pyLower b := by
  apply String.ext
  simp [pyLower, String.data_append]

/-- `pyLower` is idempotent. -/
theorem pyLowerIdem (s : String) : pyLower (pyLower s) = pyLower s := by
  apply String.ext
  simp only [pyLower, List.map_map]
  exact List.map_congr_left (fun c _ => charToLowerIdem c)

/-- Every character produced by `natDigitsAux` is an ASCII digit. -/
theorem natDigitsAuxDigitos : ∀ fuel n : Nat, ∀ c ∈ natDigitsAux fuel n, c.toNat < 65 := by
  intro fuel
  induction fuel with
  | zero => intro n c hc; exact absurd hc (List.not_mem_nil c)
  | succ f ih =>
    intro n c hc
    rw [natDigitsAux] at hc
    by_cases h : n < 10
    · rw [if_pos h] at hc
      rcases List.mem_singleton.mp hc with rfl
      rw [charToNatOfNat _ (Or.inl (by omega))]
      omega
    · rw [if_neg h] at hc
      rcases List.mem_append.mp hc with h1 | h1
      · exact ih _ _ h1
      · rcases List.mem_singleton.mp h1 with rfl
        have : n % 10 < 10 := Nat.mod_lt _ (by omega)
        rw [charToNatOfNat _ (Or.inl (by omega))]
        omega

/-- The two-digit year string is unchanged by lowercasing. -/
theorem pyLowerUltimos2NatStr (n : Nat) : pyLower (ultimos2 (natStr n)) = ultimos2 (natStr n) := by
  apply String.ext
  show List.map Char.toLower ((natDigits n).drop ((natStr n).data.length - 2)) =
    (natDigits n).drop ((natStr n).data.length - 2)
  have h : ∀ c ∈ (natDigits n).drop ((natStr n).data.length - 2), Char.toLower c = c := by
    intro c hc
    exact charToLowerFijo (natDigitsAuxDigitos _ _ _ (List.mem_of_mem_drop hc))
  calc List.map Char.toLower ((natDigits n).drop ((natStr n).data.length - 2))
      = List.map id ((natDigits n).drop ((natStr n).data.length - 2)) :=
        List.map_congr_left (fun c hc => h c hc)
    _ = (natDigits n).drop ((natStr n).data.length - 2) := List.map_id _

/-- `find?` only depends on the pointwise behaviour of its predicate. -/
theorem findIgual {α : Type} (p q : α → Bool) (l : List α) (h : ∀ a, p a = q a) :
    l.find? p = l.find? q := by
  induction l with
  | nil => rfl
  | cons x xs ih => simp [List.find?, h x, ih]

/-- C7 counterexample.  On a workbook whose only sheet is `potencia dic`
(pattern `potencia`, period December 2025) the specified rule accepts the
sheet through the bare month abbreviation, but `_encontrar_hoja_por_patron`
rejects it: the claimed acceptance rule is not the implemented one. -/
theorem resolutorHojasContraejemplo :
    encontrarHojaPorPatron ["potencia dic"] ["potencia"] 12 2025 = Option.none ∧
    resolveSheetSpec ["potencia dic"] ["potencia"] 12 2025 = some "potencia dic" := by
  constructor
  · with_unfolding_all rfl
  · with_unfolding_all rfl

/-- C7 amended.  The implemented resolver equals the amended acceptance rule
on every input: native-order first match among sheets containing all patterns
(lower-cased) plus one of `abbrevmonth-2digityear`, `abbrevmonth2digityear`
or the bare 2-digit year; `None` when no sheet qualifies. -/
theorem resolutorHojasAmendado (nombres patrones : List String) (mes anyo : Nat) :
    encontrarHojaPorPatron nombres patrones mes anyo =
      resolveSheetAmended nombres patrones mes anyo := by
  unfold encontrarHojaPorPatron resolveSheetAmended
  apply findIgual
  intro n
  have hy : pyLower (ultimos2 (natStr anyo)) = ultimos2 (natStr anyo) :=
    pyLowerUltimos2NatStr anyo
  have hd : pyLower "-" = "-" := by decide
  have hma : pyLower (pyLower (mesesAnexoPotencia mes)) = pyLower (mesesAnexoPotencia mes) :=
    pyLowerIdem _
  have collapse : ∀ x y z : Bool, (x || (y || (x || (y || z)))) = (x || (y || z)) := by
    decide
  simp only [List.any_cons, List.any_nil, pyLowerAppend, hy, hd, hma, Bool.or_false]
  rw [collapse]

/-- C6.  On any sheet holding both an `INGRESOS POR POTENCIA` row and a
`TOTAL INGRESOS POR POTENCIA FIRME CLP` row — in either order and with any
adjacent values — extracting `INGRESOS POR POTENCIA` with exclusion token
`FIRME` returns the plain row's value and never the FIRME row's value,
because a matched cell containing an exclusion token makes the scan skip that
row. -/
theorem exclusionConceptoCorrecta (v1 v2 : ℚ) (primeroFirme : Bool) :
    leerValorConceptoXlsbCore
      [("Hoja Potencia",
        if primeroFirme then
          [[(0, XVal.str "TOTAL INGRESOS POR POTENCIA FIRME CLP"), (1, XVal.num v2)],
           [(0, XVal.str "INGRESOS POR POTENCIA"), (1, XVal.num v1)]]
        else
          [[(0, XVal.str "INGRESOS POR POTENCIA"), (1, XVal.num v1)],
           [(0, XVal.str "TOTAL INGRESOS POR POTENCIA FIRME CLP"), (1, XVal.num v2)]])]
      "INGRESOS POR POTENCIA" Option.none ["FIRME"] = some v1 := by
  cases primeroFirme
  · with_unfolding_all rfl
  · with_unfolding_all rfl

/-- Under the column-presence hypotheses the filter chain succeeds and yields
the filtered table. -/
theorem filtradoBalanceEq (df : BalanceDF) (nombreEmpresa nombreBarra : String)
    (hEmp : nombreEmpresa ≠ "" → df.tieneEmpresa = true)
    (hBar : nombreBarra ≠ "" → df.tieneBarra = true) :
    filtradoBalance df nombreEmpresa nombreBarra =
      some (tablaFiltrada df nombreEmpresa nombreBarra) := by
  unfold filtradoBalance tablaFiltrada
  by_cases he : nombreEmpresa = ""
  · by_cases hb : nombreBarra = ""
    · simp [he, hb]
    · simp [he, hb, hBar hb]
  · by_cases hb : nombreBarra = ""
    · simp [he, hb, hEmp he]
    · simp [he, hb, hEmp he, hBar hb]

/-- C5 (code bug).  The Balance fallback is unreachable: `procesar_mes`
passes the keyword `carpeta_base` to `leer_total_ingresos_potencia_firme`,
whose signature accepts only `nombre_empresa`, so the call raises
`TypeError` on every run; the blanket handler returns `False` before the
fallback sum or any write, and no pair list is ever produced. -/
theorem respaldoPotenciaInalcanzable :
    llamadaValida kwargsAceptadosPotenciaFirme kwargsPasadosPotenciaFirme = false ∧
    ∀ (df : BalanceDF) (nombreEmpresa nombreBarra nombreMedidor : String)
      (archivoAnexo : Option AnexoWb) (totalSscc totalGm : Option ℚ) (anyo mes : Nat),
      procesarMes df nombreEmpresa nombreBarra nombreMedidor archivoAnexo
        totalSscc totalGm anyo mes = Option.none := by
  refine ⟨by decide, ?_⟩
  intro df nombreEmpresa nombreBarra nombreMedidor archivoAnexo totalSscc totalGm anyo mes
  simp only [procesarMes]
  split
  · rfl
  · rw [if_pos (by decide)]

/-- Strings appearing in the projection of `paresOpcional` equal its concept
name. -/
theorem memMapParesOpcional {s nombre : String} {v : Option ℚ}
    (h : s ∈ (paresOpcional nombre v).map Prod.fst) : s = nombre := by
  cases v with
  | none => exact absurd h (List.not_mem_nil s)
  | some q => simpa [paresOpcional] using h

/-- `findSome?` only depends on the member-wise behaviour of its function. -/
theorem findSomeIgualMem {α β : Type} (f g : α → Option β) (l : List α)
    (h : ∀ a ∈ l, f a = g a) : l.findSome? f = l.findSome? g := by
  induction l with
  | nil => rfl
  | cons x xs ih =>
    rw [List.findSome?_cons, List.findSome?_cons, h x (List.mem_cons_self x xs)]
    cases g x with
    | none => exact ih (fun a ha => h a (List.mem_cons_of_mem x ha))
    | some b => rfl

/-- C8.  For every valid period and base folder the locators degrade
gracefully: when every exact-name lookup (pattern 1) fails, the result is
exactly the recursive-scan chain run with the same inputs, and when those
scans also fail the locator returns `none` — never an exception (both
functions are total) and without touching the filesystem (they only read the
`fs` snapshot). -/
theorem localizadorDegradacion :
    (∀ (fs : FS) (anyo mes : Nat) (base : List String),
      1 ≤ mes → mes ≤ 12 →
      existeDir fs (base ++ ["descomprimidos"]) = true →
      (∀ c ∈ carpetasGlobBalance fs anyo mes base,
        existeArchivo fs (c.ruta ++ [nombreArchivoBalance anyo mes]) = false) →
      encontrarArchivoBalance fs anyo mes base =
        escaneosRecursivosBalance fs anyo mes base ∧
      (escaneosRecursivosBalance fs anyo mes base = Option.none →
        encontrarArchivoBalance fs anyo mes base = Option.none)) ∧
    (∀ (fs : FS) (anyo mes : Nat) (base : List String),
      1 ≤ mes → mes ≤ 12 →
      (∀ extra ∈ carpetasExtraSscc base,
        buscarExactosEn fs extra (nombresCuadrosSscc anyo mes) = Option.none) →
      (∀ c ∈ carpetasSsccDescomp fs base,
        buscarExactosEn fs c.ruta (nombresCuadrosSscc anyo mes) = Option.none) →
      encontrarArchivoCuadrosPagoSscc fs anyo mes base =
        escaneosRecursivosSscc fs anyo mes base ∧
      (escaneosRecursivosSscc fs anyo mes base = Option.none →
        encontrarArchivoCuadrosPagoSscc fs anyo mes base = Option.none)) := by
  constructor
  · intro fs anyo mes base h1 h2 hdir hex
    have hval : (mes < 1 || 12 < mes) = false := by
      simp only [Bool.or_eq_false_iff, decide_eq_false_iff_not]
      omega
    have hpr : encontrarArchivoBalance fs anyo mes base =
        escaneosRecursivosBalance fs anyo mes base := by
      simp only [encontrarArchivoBalance, escaneosRecursivosBalance, hval, hdir,
        Bool.false_eq_true, if_false, Bool.not_true]
      rw [findSomeIgualMem _
        (fun c => escaneoAnidadoBalance fs c.ruta (nombreArchivoBalance anyo mes))]
      intro c hc
      rw [hex c hc]
      simp
    exact ⟨hpr, fun hn => hpr.trans hn⟩
  · intro fs anyo mes base h1 h2 hex1 hex2
    have hval : (mes < 1 || 12 < mes) = false := by
      simp only [Bool.or_eq_false_iff, decide_eq_false_iff_not]
      omega
    have hpr : encontrarArchivoCuadrosPagoSscc fs anyo mes base =
        escaneosRecursivosSscc fs anyo mes base := by
      simp only [encontrarArchivoCuadrosPagoSscc, escaneosRecursivosSscc, hval,
        Bool.false_eq_true, if_false]
      rw [findSomeIgualMem _ (fun extra =>
        if existeRuta fs extra then
          escaneoClaveSscc fs extra (ultimos2 (natStr anyo) ++ pad2 mes)
        else Option.none)]
      · rw [findSomeIgualMem _ (fun (c : FSEntry) =>
          escaneoSsccCarpeta fs c.ruta (ultimos2 (natStr anyo) ++ pad2 mes)
            (mesesAbrev mes) (ultimos2 (natStr anyo)))]
        intro c hc
        rw [hex2 c hc]
      · intro extra hextra
        rw [hex1 extra hextra]
    exact ⟨hpr, fun hn => hpr.trans hn⟩

/-- Witness for C8: a filesystem holding only an empty `descomprimidos`
directory under `bd_data`, for December 2025. -/
theorem localizadorDegradacionWitness :
    (encontrarArchivoBalance [⟨["bd_data", "descomprimidos"], true⟩] 2025 12 ["bd_data"] =
      escaneosRecursivosBalance [⟨["bd_data", "descomprimidos"], true⟩] 2025 12 ["bd_data"]) ∧
    (encontrarArchivoCuadrosPagoSscc [⟨["bd_data", "descomprimidos"], true⟩] 2025 12 ["bd_data"] =
      escaneosRecursivosSscc [⟨["bd_data", "descomprimidos"], true⟩] 2025 12 ["bd_data"]) :=
  ⟨(localizadorDegradacion.1 [⟨["bd_data", "descomprimidos"], true⟩] 2025 12 ["bd_data"]
      (by decide) (by decide) (by decide)
      (by with_unfolding_all decide)).1,
   (localizadorDegradacion.2 [⟨["bd_data", "descomprimidos"], true⟩] 2025 12 ["bd_data"]
      (by decide) (by decide)
      (by with_unfolding_all decide)
      (by with_unfolding_all decide)).1⟩

/-- C10.  With an empty pair list `escribir_todos_en_resultado` returns
immediately — no error, no workbook touched, no save — even when the
destination file does not exist; the `FileNotFoundError` check fires only for
non-empty pair lists. -/
theorem escrituraVaciaNoOp :
    (∀ (esWin32 conPywin32 : Bool) (disco : Option Libro) (anyo mes : Nat),
      escribirTodosEnResultado esWin32 conPywin32 disco anyo mes [] =
        ⟨Option.none, disco, 0⟩) ∧
    (∀ (esWin32 conPywin32 : Bool) (anyo mes : Nat) (pares : List (String × ℚ)),
      pares ≠ [] →
      escribirTodosEnResultado esWin32 conPywin32 Option.none anyo mes pares =
        ⟨some ErrorEscritura.archivoNoEncontrado, Option.none, 0⟩) := by
  constructor
  · intro esWin32 conPywin32 disco anyo mes
    rfl
  · intro esWin32 conPywin32 anyo mes pares hne
    cases pares with
    | nil => exact absurd rfl hne
    | cons p ps => rfl

/-- Witness for C10: a non-existent destination with a missing template and a
non-empty pair list raises `FileNotFoundError`, while the empty list on the
same missing destination is a silent no-op. -/
theorem escrituraVaciaNoOpWitness :
    escribirTodosEnResultado true true Option.none 2025 12 [] =
      ⟨Option.none, Option.none, 0⟩ ∧
    escribirTodosEnResultado true true Option.none 2025 12 [("X", 1)] =
      ⟨some ErrorEscritura.archivoNoEncontrado, Option.none, 0⟩ :=
  ⟨escrituraVaciaNoOp.1 true true Option.none 2025 12,
   escrituraVaciaNoOp.2 true true 2025 12 [("X", 1)] (by decide)⟩

/-- An error raised by the pair loop names one of the submitted concepts. -/
theorem escribirParesError :
    ∀ (pares : List (String × ℚ)) (ws : Hoja) (mr colMes : Nat) (t : String),
      escribirPares ws mr colMes pares = Except.error t →
      t ∈ pares.map Prod.fst := by
  intro pares
  induction pares with
  | nil =>
    intro ws mr colMes t h
    exact absurd h (by simp [escribirPares])
  | cons p resto ih =>
    intro ws mr colMes t h
    obtain ⟨texto, valor⟩ := p
    rw [escribirPares] at h
    cases hb : buscarFilaConceptoW32 ws mr texto with
    | none =>
      rw [hb] at h
      injection h with h2
      rw [List.map_cons]
      exact h2 ▸ List.mem_cons_self _ _
    | some fila =>
      rw [hb] at h
      rw [List.map_cons]
      exact List.mem_cons_of_mem _ (ih _ mr colMes t h)

/-- Error/save invariants of the in-memory commit step. -/
theorem terminarInvariantes (wb : Libro) (ws : Hoja) (mr colMes : Nat)
    (pares : List (String × ℚ)) :
    ((terminarEscrituraW32 wb ws mr colMes pares).1.isSome →
      (terminarEscrituraW32 wb ws mr colMes pares).2.1 = wb ∧
      (terminarEscrituraW32 wb ws mr colMes pares).2.2 = 0) ∧
    ((terminarEscrituraW32 wb ws mr colMes pares).1 = Option.none →
      (terminarEscrituraW32 wb ws mr colMes pares).2.2 = 1) ∧
    (∀ t, (terminarEscrituraW32 wb ws mr colMes pares).1 =
      some (ErrorEscritura.conceptoNoEncontrado t) → t ∈ pares.map Prod.fst) := by
  unfold terminarEscrituraW32
  split
  next t0 h =>
    refine ⟨fun _ => ⟨rfl, rfl⟩, fun hc => Option.noConfusion hc, fun t ht => ?_⟩
    injection ht with h2
    injection h2 with h3
    exact h3 ▸ escribirParesError pares ws mr colMes t0 h
  next wsF h =>
    exact ⟨fun hs => Bool.noConfusion hs, fun _ => rfl, fun t ht => Option.noConfusion ht⟩

/-- Error/save invariants of the single-session writer. -/
theorem win32Invariantes (wb : Libro) (anyo mes : Nat)
    (pares : List (String × ℚ)) :
    ((escribirTodosConWin32 wb anyo mes pares).1.isSome →
      (escribirTodosConWin32 wb anyo mes pares).2.1 = wb ∧
      (escribirTodosConWin32 wb anyo mes pares).2.2 = 0) ∧
    ((escribirTodosConWin32 wb anyo mes pares).1 = Option.none →
      (escribirTodosConWin32 wb anyo mes pares).2.2 = 1) ∧
    (∀ t, (escribirTodosConWin32 wb anyo mes pares).1 =
      some (ErrorEscritura.conceptoNoEncontrado t) → t ∈ pares.map Prod.fst) := by
  simp only [escribirTodosConWin32]
  split
  next =>
    refine ⟨fun _ => ⟨rfl, rfl⟩, fun hc => Option.noConfusion hc, fun t ht => ?_⟩
    injection ht with h2
    cases h2
  next ws0 h =>
    split
    next colMes hcm =>
      exact terminarInvariantes wb ws0 _ colMes pares
    next hcm =>
      split
      next hen =>
        refine ⟨fun _ => ⟨rfl, rfl⟩, fun hc => Option.noConfusion hc, fun t ht => ?_⟩
        injection ht with h2
        cases h2
      next er hen =>
        exact terminarInvariantes wb _ _ _ pares

/-- C1 amended (Windows single-session path).  For a non-empty pair list the
single-session writer is atomic: any error (in particular an unresolved
concept, whose label the error carries and which names one of the submitted
concepts) leaves the destination file unmodified with zero saves, and on
success exactly one save happens, after all pairs were resolved and written
in memory. -/
theorem escrituraAtomicaW32 (wb : Libro) (anyo mes : Nat)
    (pares : List (String × ℚ)) (hne : pares ≠ []) :
    ((escribirTodosEnResultado true true (some wb) anyo mes pares).err.isSome →
      (escribirTodosEnResultado true true (some wb) anyo mes pares).disco = some wb ∧
      (escribirTodosEnResultado true true (some wb) anyo mes pares).guardados = 0) ∧
    ((escribirTodosEnResultado true true (some wb) anyo mes pares).err = Option.none →
      (escribirTodosEnResultado true true (some wb) anyo mes pares).guardados = 1) ∧
    (escribirTodosEnResultado true true (some wb) anyo mes pares).guardados ≤ 1 ∧
    (∀ t, (escribirTodosEnResultado true true (some wb) anyo mes pares).err =
      some (ErrorEscritura.conceptoNoEncontrado t) → t ∈ pares.map Prod.fst) := by
  obtain ⟨p, ps⟩ : ∃ p ps, pares = p :: ps := by
    cases pares with
    | nil => exact absurd rfl hne
    | cons p ps => exact ⟨p, ps, rfl⟩
  obtain ⟨ps, rfl⟩ := ps
  have hred : escribirTodosEnResultado true true (some wb) anyo mes (p :: ps) =
      ⟨(escribirTodosConWin32 wb anyo mes (p :: ps)).1,
        some (escribirTodosConWin32 wb anyo mes (p :: ps)).2.1,
        (escribirTodosConWin32 wb anyo mes (p :: ps)).2.2⟩ := rfl
  obtain ⟨hA, hB, hC⟩ := win32Invariantes wb anyo mes (p :: ps)
  rw [hred]
  refine ⟨?_, ?_, ?_, ?_⟩
  · intro hs
    obtain ⟨h1, h2⟩ := hA hs
    exact ⟨by rw [h1], h2⟩
  · intro hn
    exact hB hn
  · cases hs : (escribirTodosConWin32 wb anyo mes (p :: ps)).1 with
    | none => rw [hB hs]
    | some e =>
      have h0 := (hA (by rw [hs]; rfl)).2
      rw [h0]
      exact Nat.zero_le 1
  · intro t ht
    exact hC t ht

/-- C1 counterexample.  On the non-win32 path of
`escribir_todos_en_resultado` the write is not atomic: with pairs
`[("CONCEPTO UNO", 5), ("CONCEPTO DOS", 7)]` the run aborts naming
`CONCEPTO DOS`, yet one save has already happened and the earlier pair's
value 5 is persisted at cell (2,6) of the destination — which originally was
empty — contradicting the claim that the destination is left unmodified with
no earlier pair persisted. -/
theorem escrituraAtomicaContraejemplo :
    (escribirTodosEnResultado false false (some libroContraC1) 2025 12 paresContraC1).err =
      some (ErrorEscritura.conceptoNoEncontrado "CONCEPTO DOS") ∧
    (escribirTodosEnResultado false false (some libroContraC1) 2025 12 paresContraC1).guardados = 1 ∧
    getVal ((hojaResultado
      (((escribirTodosEnResultado false false (some libroContraC1) 2025 12
        paresContraC1).disco).getD [])).getD []) 2 6 = Val.num 5 ∧
    getVal hojaContraC1 2 6 = Val.empty := by
  refine ⟨?_, ?_, ?_, ?_⟩
  · with_unfolding_all rfl
  · with_unfolding_all rfl
  · with_unfolding_all rfl
  · with_unfolding_all rfl

/-- Witness for the amended C1: the single-session writer on the same
workbook and pairs. -/
theorem escrituraAtomicaW32Witness :
    ((escribirTodosEnResultado true true (some libroContraC1) 2025 12 paresContraC1).err.isSome →
      (escribirTodosEnResultado true true (some libroContraC1) 2025 12 paresContraC1).disco =
        some libroContraC1 ∧
      (escribirTodosEnResultado true true (some libroContraC1) 2025 12 paresContraC1).guardados = 0) ∧
    ((escribirTodosEnResultado true true (some libroContraC1) 2025 12 paresContraC1).err = Option.none →
      (escribirTodosEnResultado true true (some libroContraC1) 2025 12 paresContraC1).guardados = 1) ∧
    (escribirTodosEnResultado true true (some libroContraC1) 2025 12 paresContraC1).guardados ≤ 1 ∧
    (∀ t, (escribirTodosEnResultado true true (some libroContraC1) 2025 12 paresContraC1).err =
      some (ErrorEscritura.conceptoNoEncontrado t) → t ∈ paresContraC1.map Prod.fst) :=
  escrituraAtomicaW32 libroContraC1 2025 12 paresContraC1 (by decide)

/-- Reading a sheet after consing one entry: the head wins on its own key. -/
theorem getCeldaCons (e : (Nat × Nat) × Cell) (ws : Hoja) (r c : Nat) :
    getCelda (e :: ws) r c = if e.1 = (r, c) then e.2 else getCelda ws r c := by
  by_cases h : e.1 = (r, c)
  · simp [getCelda, List.find?_cons_of_pos, h]
  · rw [if_neg h]
    unfold getCelda
    rw [List.find?_cons_of_neg]
    simpa using h

/-- Read-after-write characterization of `ponCelda`. -/
theorem getPonCelda (ws : Hoja) (r c : Nat) (cel : Cell) (r2 c2 : Nat) :
    getCelda (ponCelda ws r c cel) r2 c2 =
      if r2 = r ∧ c2 = c then cel else getCelda ws r2 c2 := by
  rw [ponCelda, getCeldaCons]
  by_cases h : r2 = r ∧ c2 = c
  · obtain ⟨rfl, rfl⟩ := h
    simp
  · rw [if_neg h, if_neg]
    simp only [Prod.mk.injEq]
    intro hx
    exact h ⟨hx.1.symm, hx.2.symm⟩

/-- Read formula for `insertarColumna`: columns left of the insertion point
are untouched, the inserted column reads empty, and the columns at or right of
it hold the previous column's cells. -/
theorem getInsertarColumna (ws : Hoja) (k r c : Nat) :
    getCelda (insertarColumna ws k) r c =
      if c < k then getCelda ws r c
      else if c = k then celdaVacia
      else getCelda ws r (c - 1) := by
  induction ws with
  | nil =>
    simp only [insertarColumna, List.map_nil]
    split_ifs <;> rfl
  | cons e ws ih =>
    obtain ⟨⟨r0, c0⟩, cel⟩ := e
    simp only [insertarColumna, List.map_cons] at ih ⊢
    by_cases hk0 : k ≤ c0
    · rw [if_pos hk0]
      simp only [getCeldaCons, ih, Prod.mk.injEq]
      split_ifs <;> first | rfl | omega
    · rw [if_neg hk0]
      simp only [getCeldaCons, ih, Prod.mk.injEq]
      split_ifs <;> first | rfl | omega

/-- Read-after-write characterization of `escribeVal`. -/
theorem getEscribeVal (ws : Hoja) (r c : Nat) (v : Val) (r2 c2 : Nat) :
    getCelda (escribeVal ws r c v) r2 c2 =
      if r2 = r ∧ c2 = c then { getCelda ws r c with val := v }
      else getCelda ws r2 c2 := by
  rw [escribeVal, getPonCelda]

/-- Read-after-write characterization of `ponNumFmt`. -/
theorem getPonNumFmt (ws : Hoja) (r c : Nat) (nf : String) (r2 c2 : Nat) :
    getCelda (ponNumFmt ws r c nf) r2 c2 =
      if r2 = r ∧ c2 = c then { getCelda ws r c with numFmt := nf }
      else getCelda ws r2 c2 := by
  rw [ponNumFmt, getPonCelda]

/-- Read-after-write characterization of `copiarFormatoCelda`. -/
theorem getCopiarFormatoCelda (ws : Hoja) (r src dst : Nat) (r2 c2 : Nat) :
    getCelda (copiarFormatoCelda ws r src dst) r2 c2 =
      if r2 = r ∧ c2 = dst then
        ⟨(getCelda ws r dst).val, (getCelda ws r src).estilo, (getCelda ws r src).numFmt⟩
      else getCelda ws r2 c2 := by
  rw [copiarFormatoCelda, getPonCelda]

/-- Read formula for `copiarFormatos`: inside rows `1..n` of the destination
column the value is kept and the style and number format come from the source
column; every other cell is untouched. -/
theorem getCopiarFormatos (ws : Hoja) (n src dst : Nat) (hsd : src ≠ dst)
    (r c : Nat) :
    getCelda (copiarFormatos ws n src dst) r c =
      if c = dst ∧ 1 ≤ r ∧ r ≤ n then
        ⟨(getCelda ws r dst).val, (getCelda ws r src).estilo, (getCelda ws r src).numFmt⟩
      else getCelda ws r c := by
  induction n generalizing r c with
  | zero =>
    rw [copiarFormatos]
    simp only [List.range'_zero, List.foldl_nil]
    rw [if_neg]
    omega
  | succ n ih =>
    rw [copiarFormatos, List.range'_concat, Nat.one_mul, List.foldl_append,
      List.foldl_cons, List.foldl_nil]
    have hprev : (List.range' 1 n).foldl (fun w r => copiarFormatoCelda w r src dst) ws
        = copiarFormatos ws n src dst := rfl
    rw [hprev, getCopiarFormatoCelda]
    by_cases hhit : r = 1 + n ∧ c = dst
    · obtain ⟨hr, hc⟩ := hhit
      subst hr hc
      rw [if_pos ⟨rfl, rfl⟩, if_pos (by omega), ih, ih,
        if_neg (by omega), if_neg (by omega)]
    · rw [if_neg hhit, ih]
      by_cases hin : c = dst ∧ 1 ≤ r ∧ r ≤ n
      · rw [if_pos hin, if_pos (by omega)]
      · rw [if_neg hin, if_neg (by omega)]

/-- C4.  Month-column creation (win32 writer, `crearColumnaMesW32`): when the
header row `er` holds at least one month-like column but no column for the
requested period exists, the writer inserts exactly one new column immediately
to the right of the rightmost month-like column `base`: every column up to
`base` is untouched, every column beyond `base + 1` holds the cells previously
one column to the left, the new column's non-header cells in the copy range
carry the base column's style and number format with an empty value (formats
only, not values), cells beyond the copy range are empty, the header cell of
the new column is stamped with the real date `(anyo, mes, 1)`, and it inherits
the cloned header's number format whenever that format is non-blank. -/
theorem creacionColumnaMes (ws : Hoja) (er anyo mes mr mc fu : Nat)
    (hno : buscarColMes ws anyo mes mr mc = Option.none)
    (her : filaEncabezados ws mr mc = some er)
    (hmes : ((List.range' 1 mc).filter
      (fun c => esColumnaMesW32 (getVal ws er c))) ≠ [])
    (base : Nat)
    (hbase : base = ((List.range' 1 mc).filter
      (fun c => esColumnaMesW32 (getVal ws er c))).foldl max 0) :
    (crearColumnaMesW32 ws er anyo mes mr mc fu).2 = base + 1 ∧
    (∀ r c, c ≤ base →
      getCelda (crearColumnaMesW32 ws er anyo mes mr mc fu).1 r c = getCelda ws r c) ∧
    (∀ r c, base + 1 < c →
      getCelda (crearColumnaMesW32 ws er anyo mes mr mc fu).1 r c = getCelda ws r (c - 1)) ∧
    (∀ r, r ≠ er → 1 ≤ r → r ≤ min mr (fu + 30) →
      getCelda (crearColumnaMesW32 ws er anyo mes mr mc fu).1 r (base + 1) =
        ⟨Val.empty, (getCelda ws r base).estilo, (getCelda ws r base).numFmt⟩) ∧
    (∀ r, r ≠ er → min mr (fu + 30) < r →
      getCelda (crearColumnaMesW32 ws er anyo mes mr mc fu).1 r (base + 1) = celdaVacia) ∧
    getVal (crearColumnaMesW32 ws er anyo mes mr mc fu).1 er (base + 1) =
      Val.date anyo mes 1 ∧
    (pyTrim (getCelda ws er base).numFmt ≠ "" →
      (getCelda (crearColumnaMesW32 ws er anyo mes mr mc fu).1 er (base + 1)).numFmt =
        (getCelda ws er base).numFmt) := by
  have hie : ((List.range' 1 mc).filter
      (fun c => esColumnaMesW32 (getVal ws er c))).isEmpty = false := by
    cases h : (List.range' 1 mc).filter (fun c => esColumnaMesW32 (getVal ws er c)) with
    | nil => exact absurd h hmes
    | cons a l => rfl
  have hcf : ∀ (w : Hoja) (r c : Nat),
      getCelda (copiarFormatos w (min mr (fu + 30)) base (base + 1)) r c =
        if c = base + 1 ∧ 1 ≤ r ∧ r ≤ min mr (fu + 30) then
          ⟨(getCelda w r (base + 1)).val, (getCelda w r base).estilo,
            (getCelda w r base).numFmt⟩
        else getCelda w r c :=
    fun w r c => getCopiarFormatos w (min mr (fu + 30)) base (base + 1) (by omega) r c
  refine ⟨?_, ?_, ?_, ?_, ?_, ?_, ?_⟩
  · simp only [crearColumnaMesW32, hie, Bool.false_eq_true, if_false, ← hbase]
  · intro r c hc
    simp only [crearColumnaMesW32, hie, Bool.false_eq_true, if_false, ← hbase]
    split
    · rw [getPonNumFmt, if_neg (by omega), getEscribeVal, if_neg (by omega),
        hcf, if_neg (by omega), getInsertarColumna, if_pos (by omega)]
    · rw [getEscribeVal, if_neg (by omega),
        hcf, if_neg (by omega), getInsertarColumna, if_pos (by omega)]
  · intro r c hc
    simp only [crearColumnaMesW32, hie, Bool.false_eq_true, if_false, ← hbase]
    split
    · rw [getPonNumFmt, if_neg (by omega), getEscribeVal, if_neg (by omega),
        hcf, if_neg (by omega), getInsertarColumna, if_neg (by omega), if_neg (by omega)]
    · rw [getEscribeVal, if_neg (by omega),
        hcf, if_neg (by omega), getInsertarColumna, if_neg (by omega), if_neg (by omega)]
  · intro r hr h1 h2
    simp only [crearColumnaMesW32, hie, Bool.false_eq_true, if_false, ← hbase]
    split
    · rw [getPonNumFmt, if_neg (by omega), getEscribeVal, if_neg (by omega),
        hcf, if_pos (by omega), getInsertarColumna, if_neg (by omega), if_pos rfl,
        getInsertarColumna, if_pos (by omega)]
      rfl
    · rw [getEscribeVal, if_neg (by omega),
        hcf, if_pos (by omega), getInsertarColumna, if_neg (by omega), if_pos rfl,
        getInsertarColumna, if_pos (by omega)]
      rfl
  · intro r hr h2
    simp only [crearColumnaMesW32, hie, Bool.false_eq_true, if_false, ← hbase]
    split
    · rw [getPonNumFmt, if_neg (by omega), getEscribeVal, if_neg (by omega),
        hcf, if_neg (by omega), getInsertarColumna, if_neg (by omega), if_pos rfl]
    · rw [getEscribeVal, if_neg (by omega),
        hcf, if_neg (by omega), getInsertarColumna, if_neg (by omega), if_pos rfl]
  · show (getCelda (crearColumnaMesW32 ws er anyo mes mr mc fu).1 er (base + 1)).val =
      Val.date anyo mes 1
    simp only [crearColumnaMesW32, hie, Bool.false_eq_true, if_false, ← hbase]
    split
    · rw [getPonNumFmt, if_pos ⟨rfl, rfl⟩, getEscribeVal, if_pos ⟨rfl, rfl⟩]
    · rw [getEscribeVal, if_pos ⟨rfl, rfl⟩]
  · intro hf
    simp only [crearColumnaMesW32, hie, Bool.false_eq_true, if_false, ← hbase]
    have hbf : (getCelda (escribeVal (copiarFormatos (insertarColumna ws (base + 1))
        (min mr (fu + 30)) base (base + 1)) er (base + 1) (Val.date anyo mes 1))
        er base).numFmt = (getCelda ws er base).numFmt := by
      rw [getEscribeVal, if_neg (by omega), hcf, if_neg (by omega),
        getInsertarColumna, if_pos (by omega)]
    rw [hbf, if_pos hf, getPonNumFmt, if_pos ⟨rfl, rfl⟩]

/-- Witness for C4: requesting dic-25 on the oct-25/nov-25 template creates
column 7 right of `nov-25` (column 6), stamps its header with the date
2025-12-01, copies only `nov-25`'s formatting into row 2 of the new column,
and inherits the `mmm-yy` header number format. -/
theorem creacionColumnaMesWitness :
    (crearColumnaMesW32 plantillaC4 1 2025 12 2 6 2).2 = 6 + 1 ∧
    getVal (crearColumnaMesW32 plantillaC4 1 2025 12 2 6 2).1 1 (6 + 1) =
      Val.date 2025 12 1 ∧
    getCelda (crearColumnaMesW32 plantillaC4 1 2025 12 2 6 2).1 2 (6 + 1) =
      ⟨Val.empty, (getCelda plantillaC4 2 6).estilo, (getCelda plantillaC4 2 6).numFmt⟩ ∧
    (getCelda (crearColumnaMesW32 plantillaC4 1 2025 12 2 6 2).1 1 (6 + 1)).numFmt =
      (getCelda plantillaC4 1 6).numFmt := by
  obtain ⟨h1, h2, h3, h4, h5, h6, h7⟩ :=
    creacionColumnaMes plantillaC4 1 2025 12 2 6 2
      (by with_unfolding_all decide) (by with_unfolding_all decide)
      (by with_unfolding_all decide) 6 (by with_unfolding_all decide)
  exact ⟨h1, h6, h4 2 (by decide) (by decide) (by decide),
    h7 (by with_unfolding_all decide)⟩

/-- Every character produced by `natDigitsAux` is a decimal digit. -/
theorem natDigitsAuxClase : ∀ fuel n : Nat, ∀ c ∈ natDigitsAux fuel n,
    48 ≤ c.toNat ∧ c.toNat < 58 := by
  intro fuel
  induction fuel with
  | zero => intro n c hc; exact absurd hc (List.not_mem_nil c)
  | succ f ih =>
    intro n c hc
    rw [natDigitsAux] at hc
    by_cases h : n < 10
    · rw [if_pos h] at hc
      rcases List.mem_singleton.mp hc with rfl
      rw [charToNatOfNat _ (Or.inl (by omega))]
      omega
    · rw [if_neg h] at hc
      rcases List.mem_append.mp hc with h1 | h1
      · exact ih _ _ h1
      · rcases List.mem_singleton.mp h1 with rfl
        have : n % 10 < 10 := Nat.mod_lt _ (by omega)
        rw [charToNatOfNat _ (Or.inl (by omega))]
        omega

/-- Every character of the rendered rational lies in the ASCII band
`45..62` (digits, minus sign and dot) — in particular below every letter
and below `?`. -/
theorem ratPyStrClase (q : ℚ) : ∀ c ∈ (ratPyStr q).data, 45 ≤ c.toNat ∧ c.toNat < 63 := by
  intro c hc
  have hdig : ∀ m : Nat, c ∈ natDigits m → 45 ≤ c.toNat ∧ c.toNat < 63 := by
    intro m hm
    have := natDigitsAuxClase _ _ _ hm
    omega
  simp only [ratPyStr] at hc
  split_ifs at hc <;>
    simp only [String.data_append, List.mem_append, List.mem_singleton,
      List.mem_cons, List.not_mem_nil, or_false] at hc
  · rcases hc with (rfl | h) | rfl | rfl
    · decide
    · exact hdig _ h
    · decide
    · decide
  · rcases hc with (h | h) | rfl | rfl
    · exact h.elim
    · exact hdig _ h
    · decide
    · decide
  · rcases hc with ((rfl | h) | rfl) | h
    · decide
    · exact hdig _ h
    · decide
    · exact hdig _ h
  · rcases hc with ((h | h) | rfl) | h
    · exact h.elim
    · exact hdig _ h
    · decide
    · exact hdig _ h

/-- Replacing a pattern by the empty string only keeps original characters. -/
theorem replaceVacioSub : ∀ (fuel : Nat) (s pat : List Char) (c : Char),
    c ∈ replaceCharsAux fuel s pat [] → c ∈ s := by
  intro fuel
  induction fuel with
  | zero => intro s pat c hc; exact hc
  | succ f ih =>
    intro s pat c hc
    match s with
    | [] => exact hc
    | c0 :: rest =>
      rw [replaceCharsAux] at hc
      split_ifs at hc
      · rw [List.nil_append] at hc
        exact List.mem_of_mem_drop (ih _ _ _ hc)
      · rcases List.mem_cons.mp hc with rfl | h
        · exact List.mem_cons_self _ _
        · exact List.mem_cons_of_mem _ (ih _ _ _ h)

/-- Every character of the stripped lower-cased rendering of a numeric cell
stays below code point 63. -/
theorem valorNumClase (q : ℚ) :
    ∀ c ∈ (pyLower (quitarEspacios (pyTrim (ratPyStr q)))).data, c.toNat < 63 := by
  intro c hc
  simp only [pyLower, List.mem_map] at hc
  obtain ⟨c0, hc0, rfl⟩ := hc
  have h1 : c0 ∈ (pyTrim (ratPyStr q)).data := by
    have := replaceVacioSub _ _ _ _ hc0
    exact this
  have h2 : c0 ∈ (ratPyStr q).data := by
    simp only [pyTrim] at h1
    rw [List.mem_reverse] at h1
    have h3 := (List.dropWhile_sublist _).mem h1
    rw [List.mem_reverse] at h3
    exact (List.dropWhile_sublist _).mem h3
  have h4 := ratPyStrClase q c0 h2
  rw [charToLowerFijo (by omega)]
  omega

/-- `mesesAbrev` only produces the twelve abbreviations or the `??` default. -/
theorem mesesAbrevMem (mes : Nat) : mesesAbrev mes ∈
    ["ene", "feb", "mar", "abr", "may", "jun", "jul", "ago", "sep", "oct",
     "nov", "dic", "??"] := by
  match mes with
  | 0 => decide
  | 1 => decide
  | 2 => decide
  | 3 => decide
  | 4 => decide
  | 5 => decide
  | 6 => decide
  | 7 => decide
  | 8 => decide
  | 9 => decide
  | 10 => decide
  | 11 => decide
  | 12 => decide
  | (n + 13) =>
    have h : mesesAbrev (n + 13) = "??" := by
      simp only [mesesAbrev]
      repeat rw [if_neg (by omega)]
    rw [h]
    decide

/-- The lower-cased month abbreviation is non-empty and starts at code point
63 (`?`) or above (a lower-case letter). -/
theorem cabezaMes (mes : Nat) :
    (pyLower (mesesAbrev mes)).data ≠ [] ∧
      63 ≤ ((pyLower (mesesAbrev mes)).data.headD 'a').toNat := by
  have h := mesesAbrevMem mes
  simp only [List.mem_cons, List.not_mem_nil, or_false] at h
  rcases h with h | h | h | h | h | h | h | h | h | h | h | h | h <;>
    rw [h] <;> exact ⟨by decide, by decide⟩

/-- A string whose characters all lie below code point 63 never starts with a
prefix whose head is at code point 63 or above. -/
theorem prefijoFalso (s pre : String) (hs : ∀ c ∈ s.data, c.toNat < 63)
    (hne : pre.data ≠ []) (hhd : 63 ≤ (pre.data.headD 'a').toNat) :
    pyStartsWith s pre = false := by
  rw [pyStartsWith]
  cases hp : pre.data with
  | nil => exact absurd hp hne
  | cons p0 pt =>
    cases hsd : s.data with
    | nil => rfl
    | cons c0 ct =>
      have hlt : c0.toNat < 63 := hs c0 (hsd ▸ List.mem_cons_self _ _)
      have hp0 : 63 ≤ p0.toNat := by rw [hp] at hhd; exact hhd
      have hbe : (p0 == c0) = false := by
        refine beq_eq_false_iff_ne.mpr ?_
        intro h
        rw [h] at hp0
        omega
      show (p0 == c0 && pt.isPrefixOf ct) = false
      rw [hbe, Bool.false_and]

/-- Both period encodings tested by `esCeldaMes` start with the month
abbreviation head character. -/
theorem encCabeza (mes : Nat) (u : String) :
    (pyLower (mesesAbrev mes ++ "-" ++ u)).data ≠ [] ∧
      63 ≤ ((pyLower (mesesAbrev mes ++ "-" ++ u)).data.headD 'a').toNat := by
  obtain ⟨h1, h2⟩ := cabezaMes mes
  have hd : (pyLower (mesesAbrev mes ++ "-" ++ u)).data
      = (pyLower (mesesAbrev mes)).data ++ ((pyLower "-").data ++ (pyLower u).data) := by
    rw [pyLowerAppend, pyLowerAppend]
    show ((pyLower (mesesAbrev mes) ++ pyLower "-").data ++ (pyLower u).data) = _
    rw [show ∀ a b : String, (a ++ b).data = a.data ++ b.data from fun a b => rfl,
      List.append_assoc]
  rw [hd]
  cases hm : (pyLower (mesesAbrev mes)).data with
  | nil => exact absurd hm h1
  | cons m0 mt =>
    constructor
    · exact List.cons_ne_nil _ _
    · rw [hm] at h2
      exact h2

/-- A numeric cell never passes the month-column test: its text rendering
starts with a digit, a minus sign or a dot, never with a month name. -/
theorem esCeldaMesNum (q : ℚ) (anyo mes : Nat) :
    esCeldaMes (Val.num q) anyo mes = false := by
  show (pyStartsWith (pyLower (quitarEspacios (pyTrim (ratPyStr q))))
      (pyLower (mesesAbrev mes ++ "-" ++ ultimos2 (natStr anyo))) ||
    pyStartsWith (pyLower (quitarEspacios (pyTrim (ratPyStr q))))
      (pyLower (mesesAbrev mes ++ "-" ++ natStr anyo))) = false
  obtain ⟨hne2, hhd2⟩ := encCabeza mes (ultimos2 (natStr anyo))
  obtain ⟨hne4, hhd4⟩ := encCabeza mes (natStr anyo)
  rw [prefijoFalso _ _ (valorNumClase q) hne2 hhd2,
    prefijoFalso _ _ (valorNumClase q) hne4 hhd4, Bool.or_false]

/-- A guarded `findSome?` whose body maps the found element factors through
the unmapped scan. -/
theorem findSomeIfMap {β : Type} (l : List Nat) (P : Nat → Bool) (g : Nat → β) :
    l.findSome? (fun c => if P c then some (g c) else Option.none)
      = (l.findSome? (fun c => if P c then some c else Option.none)).map g := by
  induction l with
  | nil => rfl
  | cons a t ih =>
    rw [List.findSome?_cons, List.findSome?_cons]
    by_cases h : P a
    · rw [if_pos h, if_pos h]
      rfl
    · rw [if_neg h, if_neg h]
      exact ih

/-- First-match stability: if every `Q`-match is a `P`-match, the first
`P`-match also satisfies `Q`, and the `P`-scan finds `col`, then the `Q`-scan
finds `col` too. -/
theorem innerEstable (P Q : Nat → Bool) : ∀ (l : List Nat) (col : Nat),
    l.findSome? (fun c => if P c then some c else Option.none) = some col →
    (∀ c ∈ l, Q c = true → P c = true) → Q col = true →
    l.findSome? (fun c => if Q c then some c else Option.none) = some col := by
  intro l
  induction l with
  | nil =>
    intro col h
    rw [List.findSome?_nil] at h
    exact absurd h Option.noConfusion
  | cons a t ih =>
    intro col h hQP hQ
    rw [List.findSome?_cons] at h ⊢
    by_cases hp : P a
    · rw [if_pos hp] at h
      have h2 : some a = some col := h
      rcases Option.some.inj h2 with rfl
      rw [if_pos hQ]
    · rw [if_neg hp] at h
      have hqa : Q a = false := by
        cases hqa : Q a
        · rfl
        · exact absurd (hQP a (List.mem_cons_self _ _) hqa) hp
      rw [hqa]
      exact ih col h (fun c hc => hQP c (List.mem_cons_of_mem _ hc)) hQ

/-- If the `P`-scan finds nothing, neither does a scan whose matches are a
subset of the `P`-matches. -/
theorem innerNone (P Q : Nat → Bool) : ∀ (l : List Nat),
    l.findSome? (fun c => if P c then some c else Option.none) = Option.none →
    (∀ c ∈ l, Q c = true → P c = true) →
    l.findSome? (fun c => if Q c then some c else Option.none) = Option.none := by
  intro l
  induction l with
  | nil => intro _ _; rfl
  | cons a t ih =>
    intro h hQP
    rw [List.findSome?_cons] at h ⊢
    by_cases hp : P a
    · rw [if_pos hp] at h
      exact absurd h Option.noConfusion
    · rw [if_neg hp] at h
      have hqa : Q a = false := by
        cases hqa : Q a
        · rfl
        · exact absurd (hQP a (List.mem_cons_self _ _) hqa) hp
      rw [hqa]
      exact ih h (fun c hc => hQP c (List.mem_cons_of_mem _ hc))

/-- A scan over elements that all fail the test finds nothing. -/
theorem todoFalsoNone (Q : Nat → Bool) : ∀ (l : List Nat),
    (∀ c ∈ l, Q c = false) →
    l.findSome? (fun c => if Q c then some c else Option.none) = Option.none := by
  intro l
  induction l with
  | nil => intro _; rfl
  | cons a t ih =>
    intro hall
    rw [List.findSome?_cons, hall a (List.mem_cons_self _ _)]
    exact ih (fun c hc => hall c (List.mem_cons_of_mem _ hc))

/-- Row-major scan stability with column extension: the nested scan over the
modified sheet (and a widened column range on which it never matches) finds
exactly the cell the original scan found. -/
theorem scanEstable (P Q : Nat → Nat → Bool) :
    ∀ (rows : List Nat) (cols extra : List Nat) (rh col : Nat),
    rows.findSome? (fun r => cols.findSome?
      (fun c => if P r c then some (r, c) else Option.none)) = some (rh, col) →
    (∀ r ∈ rows, ∀ c ∈ cols, Q r c = true → P r c = true) →
    (∀ r ∈ rows, ∀ c ∈ extra, Q r c = false) →
    Q rh col = true →
    rows.findSome? (fun r => (cols ++ extra).findSome?
      (fun c => if Q r c then some (r, c) else Option.none)) = some (rh, col) := by
  intro rows
  induction rows with
  | nil =>
    intro cols extra rh col h
    rw [List.findSome?_nil] at h
    exact absurd h Option.noConfusion
  | cons r t ih =>
    intro cols extra rh col h hQP hExtra hQ
    rw [List.findSome?_cons] at h ⊢
    rw [findSomeIfMap] at h
    cases hP : cols.findSome? (fun c => if P r c then some c else Option.none) with
    | some c0 =>
      rw [hP] at h
      have h2 : some (r, c0) = some (rh, col) := h
      have h3 := Prod.mk.injEq .. ▸ Option.some.inj h2
      obtain ⟨rfl, rfl⟩ := h3
      have hInner : (cols ++ extra).findSome?
          (fun c => if Q r c then some c else Option.none) = some c0 := by
        rw [List.findSome?_append]
        rw [innerEstable (fun c => P r c) (fun c => Q r c) cols c0 hP
          (fun c hc => hQP r (List.mem_cons_self _ _) c hc) hQ]
        rfl
      rw [findSomeIfMap, hInner]
      rfl
    | none =>
      rw [hP] at h
      have hInnerQ : (cols ++ extra).findSome?
          (fun c => if Q r c then some c else Option.none) = Option.none := by
        rw [List.findSome?_append,
          innerNone (fun c => P r c) (fun c => Q r c) cols hP
            (fun c hc => hQP r (List.mem_cons_self _ _) c hc),
          todoFalsoNone (fun c => Q r c) extra
            (fun c hc => hExtra r (List.mem_cons_self _ _) c hc)]
        rfl
      rw [findSomeIfMap, hInnerQ]
      exact ih cols extra rh col h
        (fun r2 hr2 => hQP r2 (List.mem_cons_of_mem _ hr2))
        (fun r2 hr2 => hExtra r2 (List.mem_cons_of_mem _ hr2)) hQ

/-- Cells beyond the used column range read as the default cell. -/
theorem getCeldaMasAllaCols (ws : Hoja) (r c : Nat) (h : colsUsadas ws < c) :
    getCelda ws r c = celdaVacia := by
  induction ws with
  | nil => rfl
  | cons e t ih =>
    have hmax : colsUsadas (e :: t) = max e.1.2 (colsUsadas t) := rfl
    rw [hmax] at h
    rw [getCeldaCons, if_neg, ih (by omega)]
    intro hx
    have : e.1.2 = c := congrArg Prod.snd hx
    omega

/-- Cells beyond the used row range read as the default cell. -/
theorem getCeldaMasAllaFilas (ws : Hoja) (r c : Nat) (h : filasUsadas ws < r) :
    getCelda ws r c = celdaVacia := by
  induction ws with
  | nil => rfl
  | cons e t ih =>
    have hmax : filasUsadas (e :: t) = max e.1.1 (filasUsadas t) := rfl
    rw [hmax] at h
    rw [getCeldaCons, if_neg, ih (by omega)]
    intro hx
    have : e.1.1 = r := congrArg Prod.fst hx
    omega

/-- The win32 pair loop only writes in the month column: every other cell is
untouched. -/
theorem escribirParesCeldasOff (mr col : Nat) :
    ∀ (pares : List (String × ℚ)) (ws wsF : Hoja),
    escribirPares ws mr col pares = Except.ok wsF →
    ∀ r c, c ≠ col → getCelda wsF r c = getCelda ws r c := by
  intro pares
  induction pares with
  | nil =>
    intro ws wsF h r c _
    rw [escribirPares] at h
    rcases h with rfl | _
    rfl
  | cons p resto ih =>
    intro ws wsF h r c hc
    obtain ⟨texto, v⟩ := p
    rw [escribirPares] at h
    cases hb : buscarFilaConceptoW32 ws mr texto with
    | none => rw [hb] at h; exact absurd h Except.noConfusion
    | some f =>
      rw [hb] at h
      have := ih _ _ h r c hc
      rw [this, getEscribeVal, if_neg]
      intro hx
      exact hc hx.2

/-- In the month column the pair loop leaves each cell untouched or replaces
its value by a written number, always preserving style and number format. -/
theorem escribirParesValorCol (mr col : Nat) :
    ∀ (pares : List (String × ℚ)) (ws wsF : Hoja),
    escribirPares ws mr col pares = Except.ok wsF →
    ∀ r, getCelda wsF r col = getCelda ws r col ∨
      (∃ v : ℚ, (getCelda wsF r col).val = Val.num v) ∧
        (getCelda wsF r col).estilo = (getCelda ws r col).estilo ∧
        (getCelda wsF r col).numFmt = (getCelda ws r col).numFmt := by
  intro pares
  induction pares with
  | nil =>
    intro ws wsF h r
    rw [escribirPares] at h
    rcases h with rfl | _
    exact Or.inl rfl
  | cons p resto ih =>
    intro ws wsF h r
    obtain ⟨texto, v⟩ := p
    rw [escribirPares] at h
    cases hb : buscarFilaConceptoW32 ws mr texto with
    | none => rw [hb] at h; exact absurd h Except.noConfusion
    | some f =>
      rw [hb] at h
      have hmid : getCelda (escribeVal ws f col (Val.num v)) r col
          = if r = f then
              ⟨Val.num v, (getCelda ws f col).estilo, (getCelda ws f col).numFmt⟩
            else getCelda ws r col := by
        rw [getEscribeVal]
        by_cases hr : r = f
        · rw [if_pos ⟨hr, rfl⟩, if_pos hr]
        · rw [if_neg (fun hx => hr hx.1), if_neg hr]
      rcases ih _ _ h r with h1 | ⟨⟨v2, hv2⟩, he2, hf2⟩
      · rw [h1, hmid]
        by_cases hr : r = f
        · rw [if_pos hr]
          subst hr
          exact Or.inr ⟨⟨v, rfl⟩, rfl, rfl⟩
        · rw [if_neg hr]
          exact Or.inl rfl
      · rw [hmid] at he2 hf2
        by_cases hr : r = f
        · rw [if_pos hr] at he2 hf2
          subst hr
          exact Or.inr ⟨⟨v2, hv2⟩, he2, hf2⟩
        · rw [if_neg hr] at he2 hf2
          exact Or.inr ⟨⟨v2, hv2⟩, he2, hf2⟩

/-- The pair loop never shrinks the used range. -/
theorem filasUsadasPares (mr col : Nat) :
    ∀ (pares : List (String × ℚ)) (ws wsF : Hoja),
    escribirPares ws mr col pares = Except.ok wsF →
    filasUsadas ws ≤ filasUsadas wsF ∧ colsUsadas ws ≤ colsUsadas wsF := by
  intro pares
  induction pares with
  | nil =>
    intro ws wsF h
    rw [escribirPares] at h
    rcases h with rfl | _
    exact ⟨Nat.le_refl _, Nat.le_refl _⟩
  | cons p resto ih =>
    intro ws wsF h
    obtain ⟨texto, v⟩ := p
    rw [escribirPares] at h
    cases hb : buscarFilaConceptoW32 ws mr texto with
    | none => rw [hb] at h; exact absurd h Except.noConfusion
    | some f =>
      rw [hb] at h
      have h1 := ih _ _ h
      have h2 : filasUsadas (escribeVal ws f col (Val.num v)) = max f (filasUsadas ws) := rfl
      have h3 : colsUsadas (escribeVal ws f col (Val.num v)) = max col (colsUsadas ws) := rfl
      rw [h2, h3] at h1
      omega

/-- The concept search only reads columns A-D. -/
theorem colsEnLista : ∀ cl ∈ ([2, 1, 3, 4] : List Nat), cl ≤ 4 := by
  intro cl hcl
  simp only [List.mem_cons, List.not_mem_nil, or_false] at hcl
  rcases hcl with rfl | rfl | rfl | rfl <;> omega

/-- Concept-row resolution only depends on columns 1-4 of rows `1..mr1`:
sheets agreeing there resolve identically, even under a larger row bound
whose extra rows are empty. -/
theorem buscarFilaConceptoIgual (w1 w2 : Hoja) (mr1 mr2 : Nat) (texto : String)
    (hmr : mr1 ≤ mr2)
    (hagree : ∀ r c, 1 ≤ r → r ≤ mr1 → c ≤ 4 → getVal w1 r c = getVal w2 r c)
    (hempty : ∀ r c, mr1 < r → r ≤ mr2 → c ≤ 4 → getVal w2 r c = Val.empty) :
    buscarFilaConceptoW32 w1 mr1 texto = buscarFilaConceptoW32 w2 mr2 texto := by
  rw [buscarFilaConceptoW32, buscarFilaConceptoW32]
  refine findSomeIgualMem _ _ _ (fun tb _ => ?_)
  refine findSomeIgualMem _ _ _ (fun cl hcl => ?_)
  have hcl4 : cl ≤ 4 := colsEnLista cl hcl
  have hran : List.range' 1 mr2 = List.range' 1 mr1 ++ List.range' (1 + mr1) (mr2 - mr1) := by
    rw [show (1 + mr1) = 1 + 1 * mr1 by omega, List.range'_append]
    congr 1
    omega
  rw [hran, List.findSome?_append]
  have hsegundo : (List.range' (1 + mr1) (mr2 - mr1)).findSome?
      (fun r =>
        let v := getVal w2 r cl
        if v = Val.empty then Option.none
        else
          let valU := pyUpper (pyTrim v.pyStr)
          if containsSub valU (pyUpper tb) && celdaValida (excluirAlBuscar texto) valU
          then some r else Option.none) = Option.none := by
    rw [List.findSome?_eq_none]
    intro r hr
    rcases List.mem_range'_1.mp hr with ⟨hr1, hr2⟩
    have hv : getVal w2 r cl = Val.empty := hempty r cl (by omega) (by omega) hcl4
    simp [hv]
  rw [hsegundo]
  have hprimero : (List.range' 1 mr1).findSome?
      (fun r =>
        let v := getVal w1 r cl
        if v = Val.empty then Option.none
        else
          let valU := pyUpper (pyTrim v.pyStr)
          if containsSub valU (pyUpper tb) && celdaValida (excluirAlBuscar texto) valU
          then some r else Option.none)
      = (List.range' 1 mr1).findSome?
      (fun r =>
        let v := getVal w2 r cl
        if v = Val.empty then Option.none
        else
          let valU := pyUpper (pyTrim v.pyStr)
          if containsSub valU (pyUpper tb) && celdaValida (excluirAlBuscar texto) valU
          then some r else Option.none) := by
    refine findSomeIgualMem _ _ _ (fun r hr => ?_)
    rcases List.mem_range'_1.mp hr with ⟨hr1, hr2⟩
    rw [hagree r cl (by omega) (by omega) hcl4]
  rw [hprimero]
  cases hfin : (List.range' 1 mr1).findSome?
      (fun r =>
        let v := getVal w2 r cl
        if v = Val.empty then Option.none
        else
          let valU := pyUpper (pyTrim v.pyStr)
          if containsSub valU (pyUpper tb) && celdaValida (excluirAlBuscar texto) valU
          then some r else Option.none) with
  | none => rfl
  | some x => rfl

/-- Parallel simulation of two pair-loop runs over sheets that agree outside
the month column and agree on formats inside it: both fail with the same
concept, or both succeed with sheets that agree outside the month column and
cell-for-cell inside it wherever either run wrote. -/
theorem escribirParesParalelo (ws0 : Hoja) (col mr1 mr2 : Nat)
    (hcol4 : 4 < col) (hmr : mr1 ≤ mr2) (hfu : filasUsadas ws0 < mr1) :
    ∀ (pares : List (String × ℚ)) (u w : Hoja),
    (∀ r c, c ≠ col → getCelda w r c = getCelda u r c) →
    (∀ r, (getCelda w r col).estilo = (getCelda u r col).estilo ∧
      (getCelda w r col).numFmt = (getCelda u r col).numFmt) →
    (∀ r c, c ≤ 4 → getCelda u r c = getCelda ws0 r c) →
    (∀ t, escribirPares u mr1 col pares = Except.error t →
      escribirPares w mr2 col pares = Except.error t) ∧
    (∀ uF, escribirPares u mr1 col pares = Except.ok uF →
      ∃ wF, escribirPares w mr2 col pares = Except.ok wF ∧
        (∀ r c, c ≠ col → getCelda wF r c = getCelda uF r c) ∧
        (∀ r, getCelda wF r col = getCelda uF r col ∨
          (getCelda wF r col = getCelda w r col ∧
            getCelda uF r col = getCelda u r col))) := by
  intro pares
  induction pares with
  | nil =>
    intro u w hI1 hI2 hI3
    constructor
    · intro t ht
      rw [escribirPares] at ht
      exact absurd ht Except.noConfusion
    · intro uF h
      rw [escribirPares] at h
      rcases Except.ok.inj h with rfl
      exact ⟨w, rfl, hI1, fun r => Or.inr ⟨rfl, rfl⟩⟩
  | cons p resto ih =>
    intro u w hI1 hI2 hI3
    obtain ⟨texto, v⟩ := p
    have hres : buscarFilaConceptoW32 u mr1 texto = buscarFilaConceptoW32 w mr2 texto := by
      refine buscarFilaConceptoIgual u w mr1 mr2 texto hmr ?_ ?_
      · intro r c h1 h2 hc4
        rw [getVal, getVal, hI1 r c (by omega)]
      · intro r c hmr1 hmr2 hc4
        rw [getVal, hI1 r c (by omega), hI3 r c hc4,
          getCeldaMasAllaFilas ws0 r c (by omega)]
        rfl
    cases hb : buscarFilaConceptoW32 u mr1 texto with
    | none =>
      have hu : escribirPares u mr1 col ((texto, v) :: resto) = Except.error texto := by
        rw [escribirPares, hb]
      have hw : escribirPares w mr2 col ((texto, v) :: resto) = Except.error texto := by
        rw [escribirPares, ← hres, hb]
      constructor
      · intro t ht
        rw [hu] at ht
        rcases Except.error.inj ht with rfl
        exact hw
      · intro uF h
        rw [hu] at h
        exact absurd h Except.noConfusion
    | some f =>
      have hI1n : ∀ r c, c ≠ col →
          getCelda (escribeVal w f col (Val.num v)) r c
            = getCelda (escribeVal u f col (Val.num v)) r c := by
        intro r c hc
        rw [getEscribeVal, getEscribeVal,
          if_neg (fun hx => hc hx.2), if_neg (fun hx => hc hx.2)]
        exact hI1 r c hc
      have hI2n : ∀ r,
          (getCelda (escribeVal w f col (Val.num v)) r col).estilo
            = (getCelda (escribeVal u f col (Val.num v)) r col).estilo ∧
          (getCelda (escribeVal w f col (Val.num v)) r col).numFmt
            = (getCelda (escribeVal u f col (Val.num v)) r col).numFmt := by
        intro r
        rw [getEscribeVal, getEscribeVal]
        by_cases hr : r = f
        · rw [if_pos ⟨hr, rfl⟩, if_pos ⟨hr, rfl⟩]
          exact hI2 f
        · rw [if_neg (fun hx => hr hx.1), if_neg (fun hx => hr hx.1)]
          exact hI2 r
      have hI3n : ∀ r c, c ≤ 4 →
          getCelda (escribeVal u f col (Val.num v)) r c = getCelda ws0 r c := by
        intro r c hc
        rw [getEscribeVal, if_neg (by rintro ⟨h1, h2⟩; omega)]
        exact hI3 r c hc
      obtain ⟨ihErr, ihOk⟩ := ih (escribeVal u f col (Val.num v))
        (escribeVal w f col (Val.num v)) hI1n hI2n hI3n
      constructor
      · intro t ht
        rw [escribirPares, hb] at ht
        rw [escribirPares, ← hres, hb]
        exact ihErr t ht
      · intro uF h
        rw [escribirPares, hb] at h
        obtain ⟨wF, hwF, hoff, hc⟩ := ihOk uF h
        refine ⟨wF, ?_, hoff, ?_⟩
        · rw [escribirPares, ← hres, hb]
          exact hwF
        · intro r
          rcases hc r with h1 | ⟨h2, h3⟩
          · exact Or.inl h1
          · by_cases hr : r = f
            · subst hr
              refine Or.inl ?_
              rw [h2, h3, getEscribeVal, getEscribeVal,
                if_pos ⟨rfl, rfl⟩, if_pos ⟨rfl, rfl⟩]
              obtain ⟨he, hf⟩ := hI2 r
              rw [show ∀ x : Cell, { x with val := Val.num v }
                  = Cell.mk (Val.num v) x.estilo x.numFmt from fun x => rfl,
                show ∀ x : Cell, { x with val := Val.num v }
                  = Cell.mk (Val.num v) x.estilo x.numFmt from fun x => rfl,
                he, hf]
            · refine Or.inr ⟨?_, ?_⟩
              · rw [h2, getEscribeVal, if_neg (fun hx => hr hx.1)]
              · rw [h3, getEscribeVal, if_neg (fun hx => hr hx.1)]

/-- Storing a sheet back makes it the sheet that `hojaResultado` finds. -/
theorem hojaResultadoPon (wb : Libro) (ws0 ns : Hoja)
    (h : hojaResultado wb = some ws0) :
    hojaResultado (ponHojaResultado wb ns) = some ns := by
  induction wb with
  | nil => exact absurd h Option.noConfusion
  | cons p t ih =>
    obtain ⟨n, s⟩ := p
    rw [ponHojaResultado]
    by_cases hn : esHojaResultado n
    · rw [if_pos hn, hojaResultado]
      rw [List.find?_cons_of_pos _ (by exact hn)]
      rfl
    · rw [if_neg hn, hojaResultado, List.find?_cons_of_neg _ (by simpa using hn)]
      rw [hojaResultado, List.find?_cons_of_neg _ (by simpa using hn)] at h
      exact ih h

/-- Storing the `Resultado` sheet twice keeps only the last store. -/
theorem ponPon (wb : Libro) (a b : Hoja) :
    ponHojaResultado (ponHojaResultado wb a) b = ponHojaResultado wb b := by
  induction wb with
  | nil => rfl
  | cons p t ih =>
    obtain ⟨n, s⟩ := p
    rw [ponHojaResultado]
    by_cases hn : esHojaResultado n
    · rw [if_pos hn, ponHojaResultado, if_pos hn, ponHojaResultado, if_pos hn]
    · rw [if_neg hn, ponHojaResultado, if_neg hn, ponHojaResultado, if_neg hn, ih]

/-- Sheet equivalence is reflexive. -/
theorem hojasEquivalentesRefl (h : Hoja) : hojasEquivalentes h h :=
  fun _ _ => rfl

/-- Storing equivalent sheets yields equivalent workbooks. -/
theorem ponEquiv (wb : Libro) (a b : Hoja) (hab : hojasEquivalentes a b) :
    librosEquivalentes (ponHojaResultado wb a) (ponHojaResultado wb b) := by
  induction wb with
  | nil => exact ⟨rfl, List.Forall₂.nil⟩
  | cons p t ih =>
    obtain ⟨n, s⟩ := p
    rw [ponHojaResultado, ponHojaResultado]
    by_cases hn : esHojaResultado n
    · rw [if_pos hn, if_pos hn]
      refine ⟨rfl, List.Forall₂.cons hab ?_⟩
      rw [List.forall₂_same]
      intro x _
      exact hojasEquivalentesRefl x.2
    · rw [if_neg hn, if_neg hn]
      obtain ⟨ih1, ih2⟩ := ih
      refine ⟨?_, List.Forall₂.cons (hojasEquivalentesRefl s) ih2⟩
      rw [List.map_cons, List.map_cons, ih1]

/-- A successful month scan returns an in-range cell that passes the test. -/
theorem buscarRCDatos (ws : Hoja) (anyo mes mr mc rh col : Nat)
    (h : buscarColMesRC ws anyo mes mr mc = some (rh, col)) :
    (1 ≤ rh ∧ rh ≤ min 15 mr) ∧ (1 ≤ col ∧ col ≤ mc) ∧
      esCeldaMes (getVal ws rh col) anyo mes = true := by
  rw [buscarColMesRC] at h
  obtain ⟨r, hr, hinner⟩ := List.exists_of_findSome?_eq_some h
  obtain ⟨c, hc, hbody⟩ := List.exists_of_findSome?_eq_some hinner
  by_cases hp : esCeldaMes (getVal ws r c) anyo mes
  · rw [if_pos hp] at hbody
    obtain ⟨rfl, rfl⟩ := Prod.mk.injEq .. ▸ Option.some.inj hbody
    rcases List.mem_range'_1.mp hr with ⟨h1, h2⟩
    rcases List.mem_range'_1.mp hc with ⟨h3, h4⟩
    exact ⟨⟨h1, by omega⟩, ⟨h3, by omega⟩, hp⟩
  · rw [if_neg hp] at hbody
    exact absurd hbody Option.noConfusion

/-- The month-column scan of the written sheet under the (possibly larger)
re-computed bounds still finds the original header cell, provided the writes
left that cell unchanged. -/
theorem buscarColMesEstable (ws0 wsF : Hoja) (anyo mes mr mc mr2 mc2 rh col : Nat)
    (hrc : buscarColMesRC ws0 anyo mes mr mc = some (rh, col))
    (hmr15 : 15 ≤ mr) (hmr215 : 15 ≤ mr2) (hmcle : mc ≤ mc2)
    (hcU : colsUsadas ws0 ≤ mc)
    (hoff : ∀ r c, c ≠ col → getCelda wsF r c = getCelda ws0 r c)
    (hvals : ∀ r, getCelda wsF r col = getCelda ws0 r col ∨
      (∃ v : ℚ, (getCelda wsF r col).val = Val.num v))
    (hstable : getCelda wsF rh col = getCelda ws0 rh col) :
    buscarColMesRC wsF anyo mes mr2 mc2 = some (rh, col) := by
  obtain ⟨⟨hrh1, hrh2⟩, ⟨hcol1, hcol2⟩, hP⟩ := buscarRCDatos ws0 anyo mes mr mc rh col hrc
  have hmin : min 15 mr = 15 := by omega
  have hmin2 : min 15 mr2 = 15 := by omega
  rw [buscarColMesRC] at hrc ⊢
  rw [hmin] at hrc
  rw [hmin2]
  have hsplit : List.range' 1 mc2
      = List.range' 1 mc ++ List.range' (1 + mc) (mc2 - mc) := by
    rw [show (1 + mc) = 1 + 1 * mc by omega, List.range'_append]
    congr 1
    omega
  rw [hsplit]
  refine scanEstable (fun r c => esCeldaMes (getVal ws0 r c) anyo mes)
    (fun r c => esCeldaMes (getVal wsF r c) anyo mes)
    (List.range' 1 15) (List.range' 1 mc) (List.range' (1 + mc) (mc2 - mc)) rh col
    hrc ?_ ?_ ?_
  · intro r _ c hc hq
    by_cases hcc : c = col
    · subst hcc
      rcases hvals r with h1 | ⟨v, hv⟩
      · simp only [getVal] at hq ⊢
        rw [h1] at hq
        exact hq
      · simp only [getVal] at hq
        rw [hv, esCeldaMesNum] at hq
        exact absurd hq Bool.noConfusion
    · simp only [getVal] at hq ⊢
      rw [hoff r c hcc] at hq
      exact hq
  · intro r _ c hc
    rcases List.mem_range'_1.mp hc with ⟨hc1, _⟩
    have hne : c ≠ col := by omega
    simp only [getVal]
    rw [hoff r c hne, getCeldaMasAllaCols ws0 r c (by omega)]
    rfl
  · simp only [getVal]
    rw [hstable]
    exact hP

/-- C2 (amended).  Win32 writer re-run stability: when the template already
has the period's month column at `col` (beyond the searched columns A-D),
every concept resolves (`escribirPares` succeeds) and the first run's writes
leave the month column untouched in the scanned header rows 1-15 (so every
resolved concept row lies below the header scan), then the first run saves
exactly the written sheet, the second run locates the same column `col`
under its re-computed bounds instead of creating a new one, and the second
run's saved workbook is cell-for-cell equal to the first run's.  Under these
hypotheses every cell either run's scans read is an unmodified template cell
(concept resolution reads only columns A-D, which the writes at `col > 4`
never touch, and the month scan reads only rows 1-15), so the modelled reads
never go through a written cell and COM read-back coercion cannot diverge. -/
theorem idempotenciaRelanzamiento (wb : Libro) (anyo mes : Nat)
    (pares : List (String × ℚ)) (ws0 wsF : Hoja) (rh col : Nat)
    (hws : hojaResultado wb = some ws0)
    (hpar : pares ≠ [])
    (hrc : buscarColMesRC ws0 anyo mes (max (filasUsadas ws0) 50 + 20)
      (max (colsUsadas ws0) 30) = some (rh, col))
    (hcol4 : 4 < col)
    (hok : escribirPares ws0 (max (filasUsadas ws0) 50 + 20) col pares = Except.ok wsF)
    (hstable : ∀ r ∈ List.range' 1 15, getCelda wsF r col = getCelda ws0 r col) :
    escribirTodosEnResultado true true (some wb) anyo mes pares
      = ⟨Option.none, some (ponHojaResultado wb wsF), 1⟩ ∧
    buscarColMes wsF anyo mes (max (filasUsadas wsF) 50 + 20)
      (max (colsUsadas wsF) 30) = some col ∧
    ∃ wsF2 : Hoja,
      escribirTodosEnResultado true true (some (ponHojaResultado wb wsF)) anyo mes pares
        = ⟨Option.none, some (ponHojaResultado wb wsF2), 1⟩ ∧
      hojasEquivalentes wsF2 wsF ∧
      librosEquivalentes (ponHojaResultado wb wsF2) (ponHojaResultado wb wsF) := by
  have hne : pares.isEmpty = false := by
    cases pares with
    | nil => exact absurd rfl hpar
    | cons a t => rfl
  have hmono := filasUsadasPares (max (filasUsadas ws0) 50 + 20) col pares ws0 wsF hok
  have hoff := escribirParesCeldasOff (max (filasUsadas ws0) 50 + 20) col pares ws0 wsF hok
  have hvalsfmt := escribirParesValorCol (max (filasUsadas ws0) 50 + 20) col pares ws0 wsF hok
  have hcm : buscarColMes ws0 anyo mes (max (filasUsadas ws0) 50 + 20)
      (max (colsUsadas ws0) 30) = some col := by
    rw [buscarColMes, hrc]
    rfl
  have hrun1 : escribirTodosEnResultado true true (some wb) anyo mes pares
      = ⟨Option.none, some (ponHojaResultado wb wsF), 1⟩ := by
    simp only [escribirTodosEnResultado, hne, Bool.false_eq_true, if_false,
      Bool.and_self, if_true, escribirTodosConWin32, hws, hcm,
      terminarEscrituraW32, hok]
  have hdat := buscarRCDatos ws0 anyo mes (max (filasUsadas ws0) 50 + 20)
    (max (colsUsadas ws0) 30) rh col hrc
  have hstable1 : getCelda wsF rh col = getCelda ws0 rh col := by
    refine hstable rh (List.mem_range'_1.mpr ⟨hdat.1.1, ?_⟩)
    have h15 := hdat.1.2
    omega
  have hbc2 : buscarColMesRC wsF anyo mes (max (filasUsadas wsF) 50 + 20)
      (max (colsUsadas wsF) 30) = some (rh, col) := by
    refine buscarColMesEstable ws0 wsF anyo mes (max (filasUsadas ws0) 50 + 20)
      (max (colsUsadas ws0) 30) (max (filasUsadas wsF) 50 + 20)
      (max (colsUsadas wsF) 30) rh col hrc (by omega) (by omega)
      (by rcases hmono with ⟨_, h2⟩; omega) (by omega) hoff ?_ hstable1
    intro r
    rcases hvalsfmt r with h1 | ⟨⟨v, hv⟩, _, _⟩
    · exact Or.inl h1
    · exact Or.inr ⟨v, hv⟩
  have hcm2 : buscarColMes wsF anyo mes (max (filasUsadas wsF) 50 + 20)
      (max (colsUsadas wsF) 30) = some col := by
    rw [buscarColMes, hbc2]
    rfl
  obtain ⟨_, ihOk⟩ := escribirParesParalelo ws0 col (max (filasUsadas ws0) 50 + 20)
    (max (filasUsadas wsF) 50 + 20) hcol4 (by rcases hmono with ⟨h1, _⟩; omega)
    (by omega) pares ws0 wsF
    (fun r c hc => hoff r c hc)
    (fun r => by
      rcases hvalsfmt r with h1 | ⟨_, he, hf⟩
      · rw [h1]
        exact ⟨rfl, rfl⟩
      · exact ⟨he, hf⟩)
    (fun r c _ => rfl)
  obtain ⟨wsF2, hok2, hoff2, hcol2⟩ := ihOk wsF hok
  have hequiv : hojasEquivalentes wsF2 wsF := by
    intro r c
    by_cases hc : c = col
    · subst hc
      rcases hcol2 r with h1 | ⟨h2, _⟩
      · exact h1
      · exact h2
    · exact hoff2 r c hc
  have hws2 : hojaResultado (ponHojaResultado wb wsF) = some wsF :=
    hojaResultadoPon wb ws0 wsF hws
  have hrun2 : escribirTodosEnResultado true true (some (ponHojaResultado wb wsF))
      anyo mes pares = ⟨Option.none, some (ponHojaResultado wb wsF2), 1⟩ := by
    simp only [escribirTodosEnResultado, hne, Bool.false_eq_true, if_false,
      Bool.and_self, if_true, escribirTodosConWin32, hws2, hcm2,
      terminarEscrituraW32, hok2, ponPon]
  exact ⟨hrun1, hcm2, wsF2, hrun2, hequiv, ponEquiv wb wsF2 wsF hequiv⟩

set_option maxRecDepth 100000 in
/-- C2 (counterexample).  Both runs succeed, yet re-running the writer is not
idempotent: the first run resolves `FOO` on the header row and overwrites the
period's `dic-25` text header at (1,5) — a `General`-format cell, so the
stored number 3 also reads back as the number 3.0, which is neither a date
nor month-patterned text — hence the second run finds no month column and no
month-like header column, inserts a fresh column at the `TOTAL INGRESOS`
anchor default (column 2) and shifts every cell right: cell (1,3) is empty
after one run but holds `FOO` after two, and the used width grows from 5 to
6 columns — the second run neither locates the first run's column nor
reproduces the same final cell values. -/
theorem idempotenciaContraejemplo :
    (escribirTodosEnResultado true true (some libroContraC2) 2025 12 paresContraC2).err
      = Option.none ∧
    (escribirTodosEnResultado true true
      ((escribirTodosEnResultado true true (some libroContraC2) 2025 12
        paresContraC2).disco) 2025 12 paresContraC2).err = Option.none ∧
    ((escribirTodosEnResultado true true (some libroContraC2) 2025 12
        paresContraC2).disco.bind hojaResultado).map (fun h => getVal h 1 3)
      = some Val.empty ∧
    ((escribirTodosEnResultado true true
        ((escribirTodosEnResultado true true (some libroContraC2) 2025 12
          paresContraC2).disco) 2025 12 paresContraC2).disco.bind
        hojaResultado).map (fun h => getVal h 1 3) = some (Val.str "FOO") ∧
    ((escribirTodosEnResultado true true (some libroContraC2) 2025 12
        paresContraC2).disco.bind hojaResultado).map colsUsadas = some 5 ∧
    ((escribirTodosEnResultado true true
        ((escribirTodosEnResultado true true (some libroContraC2) 2025 12
          paresContraC2).disco) 2025 12 paresContraC2).disco.bind
        hojaResultado).map colsUsadas = some 6 := by
  exact ⟨by with_unfolding_all decide, by with_unfolding_all decide,
    by with_unfolding_all decide, by with_unfolding_all decide,
    by with_unfolding_all decide, by with_unfolding_all decide⟩

set_option maxRecDepth 100000 in
/-- Witness for the amended C2: on the well-behaved template the first run
writes 3 into (16,5) — below every scanned header row — and saves, and the
second run's month scan locates column 5 again. -/
theorem idempotenciaRelanzamientoWitness :
    escribirTodosEnResultado true true (some libroTestC2) 2025 12 [("FOO", 3)]
      = ⟨Option.none, some (ponHojaResultado libroTestC2
          (escribeVal hojaTestC2 16 5 (Val.num 3))), 1⟩ ∧
    buscarColMes (escribeVal hojaTestC2 16 5 (Val.num 3)) 2025 12
      (max (filasUsadas (escribeVal hojaTestC2 16 5 (Val.num 3))) 50 + 20)
      (max (colsUsadas (escribeVal hojaTestC2 16 5 (Val.num 3))) 30) = some 5 := by
  obtain ⟨h1, h2, _⟩ := idempotenciaRelanzamiento libroTestC2 2025 12 [("FOO", 3)]
    hojaTestC2 (escribeVal hojaTestC2 16 5 (Val.num 3)) 1 5
    (by with_unfolding_all decide) (by decide)
    (by with_unfolding_all decide) (by decide)
    (by with_unfolding_all rfl) (by with_unfolding_all decide)
  exact ⟨h1, h2⟩
